import Mathlib

/-!
# Verification of the event_plots lap-chart generator

Shallow embedding of `src/custom_plugins/event_plots/event_plots.py`
(class `EventPlotsGenerator`).  External timing records (pilots, heats,
races, pilot runs, laps, aggregate results) are modelled as explicit data;
the read-only RHAPI data-source surface is a record of functions.  Python
attribute probing (`hasattr` chains) is modelled with `Option` fields,
access failures of external lookups with `Except`/`Option` results, and
float lap times with rationals.  The module-level LRU cache
`self._race_cache` is threaded through the extraction functions as
explicit state.
-/

/-! ## Numeric string parsing

`_parse_lap_time` uses Python `float(...)`; the round fallback uses
`int(...)`.  The embeddings below cover plain decimal literals with an
optional sign (the forms produced by the timing formatter); other Python
float syntax (exponents, inf/nan) is out of scope of the records modelled
here. -/

/-- Strip leading and trailing whitespace (Python `str.strip`, and the
stripping `float`/`int` perform on their argument). -/
def trimChars (cs : List Char) : List Char :=
  ((cs.dropWhile Char.isWhitespace).reverse.dropWhile Char.isWhitespace).reverse

/-- Parse a nonempty string of decimal digits. -/
def parseNatDigits (cs : List Char) : Option Nat :=
  if cs.isEmpty then none
  else
    cs.foldl
      (fun acc c =>
        match acc with
        | none => none
        | some n => if c.isDigit then some (n * 10 + (c.toNat - Char.toNat '0')) else none)
      (some 0)

/-- Embedding of Python `int(word)`: optional surrounding whitespace,
optional sign, then digits. -/
def parseIntChars (token : List Char) : Option Int :=
  match trimChars token with
  | [] => none
  | '-' :: rest => (parseNatDigits rest).map (fun n => -(n : Int))
  | '+' :: rest => (parseNatDigits rest).map (fun n => (n : Int))
  | cs => (parseNatDigits cs).map (fun n => (n : Int))

/-- Signed decimal parsing on a trimmed character list (the digit
grammar of Python `float` restricted to plain decimal literals). -/
def parseFloatChars (cs0 : List Char) : Option ℚ :=
  let unsigned : List Char → Option ℚ := fun cs =>
    match cs.splitOn '.' with
    | [intPart] => (parseNatDigits intPart).map (fun n => (n : ℚ))
    | [intPart, fracPart] =>
      if intPart.isEmpty ∧ fracPart.isEmpty then none
      else
        let iv : Option Nat := if intPart.isEmpty then some 0 else parseNatDigits intPart
        let fv : Option Nat := if fracPart.isEmpty then some 0 else parseNatDigits fracPart
        match iv, fv with
        | some i, some f => some ((i : ℚ) + (f : ℚ) / ((10 : ℚ) ^ fracPart.length))
        | _, _ => none
    | _ => none
  match cs0 with
  | [] => none
  | '-' :: rest => (unsigned rest).map (fun q => -q)
  | '+' :: rest => unsigned rest
  | cs => unsigned cs

/-- Embedding of Python `float(s)` restricted to signed decimal
literals. -/
def parseFloatLit (s : String) : Option ℚ :=
  parseFloatChars (trimChars s.toList)

/-- Embedding of `_parse_lap_time`: `"MM:SS.mmm"` becomes minutes*60+seconds,
otherwise the string is parsed as seconds directly; any parse failure
yields the safe default `0.0`. -/
def parse_lap_time (lap_time_formatted : String) : ℚ :=
  match (lap_time_formatted.toList).splitOn ':' with
  | [m, s] =>
    match parseFloatChars (trimChars m), parseFloatChars (trimChars s) with
    | some mv, some sv => mv * 60 + sv
    | _, _ => 0
  | _ =>
    match parseFloatLit lap_time_formatted with
    | some v => v
    | none => 0

/-! ## External data model (RaceDataSource records) -/

/-- A pilot record. -/
structure Pilot where
  id : Nat
  callsign : String
  color : String
deriving DecidableEq, Repr

/-- A heat record.  `_get_class_heat_ids` probes the attributes
`class_id`, `raceclass_id`, `race_class_id` in that order; each is
modelled as an `Option` (absent attribute or failing access = `none`). -/
structure Heat where
  id : Nat
  class_id : Option Nat
  raceclass_id : Option Nat
  race_class_id : Option Nat
deriving DecidableEq, Repr

/-- A round object, as returned by the optional `round_by_id` API. -/
structure RoundObj where
  round_number : Option Int
deriving DecidableEq, Repr

/-- A race record.  `round_id`, `round`, `round_number` model the
best-effort attribute probing in `_get_round_number`. -/
structure Race where
  heat_id : Nat
  round_id : Option Nat
  round : Option Int
  round_number : Option Int
deriving DecidableEq, Repr

/-- A pilot-run record (`pilot_id = 0` means unassigned and is skipped).
The optional round fields model the probing in `_get_round_number`. -/
structure PilotRun where
  id : Nat
  pilot_id : Nat
  round_id : Option Nat
  round : Option Int
  round_number : Option Int
deriving DecidableEq, Repr

/-- A lap record as returned by `laps_by_pilotrun`. -/
structure Lap where
  race_id : Nat
  lap_time_formatted : String
  deleted : Nat
deriving DecidableEq, Repr

/-- The `consecutives_source` sub-dictionary of one `by_consecutives`
entry.  `heat` is the truthiness of the `heat` key; `round = none` models
a missing `round` key (a `KeyError` in the source). -/
structure ConsecSource where
  heat : Bool
  round : Option Int
  displayname : String
deriving DecidableEq, Repr

/-- The `consecutives` value may arrive as a number, a formatted string,
or be missing/None. -/
inductive ConsecValue where
  | num (q : ℚ)
  | str (s : String)
  | none
deriving DecidableEq, Repr

/-- One pilot entry of the `by_consecutives` list in the class results. -/
structure ConsecPilot where
  pilot_id : Nat
  laps : Nat
  consecutives_source : Option ConsecSource
  consecutives : ConsecValue
  consecutive_lap_start : Option Int
  consecutives_base : Option Int
deriving DecidableEq, Repr

/-- Per-class aggregate results dictionary; only the `by_consecutives`
key is consulted by the plugin (`none` = key absent). -/
structure RaceClassResults where
  by_consecutives : Option (List ConsecPilot)
deriving DecidableEq, Repr

/-- A race format.  All attribute accesses in the source are guarded by
`hasattr`, hence `Option` fields. -/
structure RaceFormat where
  win_condition : Option Int
  name : Option String
  consecutive_laps_base : Option Int
  consecutives_base : Option Int
deriving DecidableEq, Repr

/-- A race class.  `id = none` merges the `hasattr` failure and the
`id is None` case of `_validate_raceclass` (they differ only in the
error-message text).  `format_id`, `raceformat`, `format` model the
attribute-probing chain used to reach the race format. -/
structure RaceClass where
  id : Option Nat
  name : Option String
  format_id : Option Nat
  raceformat : Option RaceFormat
  format : Option RaceFormat
deriving DecidableEq, Repr

/-- The read-only RHAPI data-source surface consumed by the generator,
specialised to the race class a `generate_plot` call is about.
`race_by_id` returning `.error ()` models the lookup raising;
`round_by_id`/`pilotrun_by_id` are `none` when the API method does not
exist (`hasattr(self.rhapi.db, ...)` fails).  `raceclass_results = none`
models a falsy or failing results lookup.  `render_error` models the
external, opaque chart renderer raising during `fig.to_html`; the
renderer itself is outside the verified core. -/
structure DB where
  pilots : List Pilot
  heats : List Heat
  races : List Race
  pilotruns : List PilotRun
  laps_by_pilotrun : Nat → List Lap
  race_by_id : Nat → Except Unit (Option Race)
  round_by_id : Option (Nat → Option RoundObj)
  pilotrun_by_id : Option (Nat → Option PilotRun)
  raceformat_by_id : Nat → Option RaceFormat
  raceclass_results : Option RaceClassResults
  event_name : String
  render_error : Option String

/-! ## The bounded LRU race→heat cache (`self._race_cache`)

An `OrderedDict` is modelled as an association list in recency order:
head = least recently used, last = most recently used.  Keys are unique
for caches built by the code (`OrderedDict` semantics). -/

/-- LRU cache state: `(race_id, heat_id)` pairs, oldest first. -/
abbrev Cache := List (Nat × Nat)

/-- `self._max_cache_size`. -/
def maxCacheSize : Nat := 1000

/-- Dictionary lookup (`race_id in self._race_cache` / subscript read). -/
def cacheGet (c : Cache) (k : Nat) : Option Nat :=
  (c.find? (fun e => e.1 = k)).map (fun e => e.2)

/-- `OrderedDict.move_to_end`: move the entry for `k` to the
most-recently-used end. -/
def moveToEnd (c : Cache) (k : Nat) : Cache :=
  match c.find? (fun e => e.1 = k) with
  | Option.none => c
  | Option.some e => c.eraseP (fun x => x.1 = k) ++ [e]

/-- The un-cached resolution body of `_get_race_heat_id`:
`race.heat_id if race else 0`, and `0` when the lookup raises. -/
def resolveHeatId (db : DB) (race_id : Nat) : Nat :=
  match db.race_by_id race_id with
  | .ok (Option.some race) => race.heat_id
  | .ok Option.none => 0
  | .error _ => 0

/-- Embedding of `_get_race_heat_id`: cached lookup of a race's heat id
with LRU eviction at `maxCacheSize`.  On a miss the resolved value —
including the safe default 0 produced when the race lookup fails — is
inserted at the most-recently-used end, evicting the oldest entry if the
cache is full.  On a hit the entry is moved to the most-recently-used
end and its value returned. -/
def get_race_heat_id (db : DB) (c : Cache) (race_id : Nat) : Nat × Cache :=
  match cacheGet c race_id with
  | Option.some v => (v, moveToEnd c race_id)
  | Option.none =>
    let heat_id := resolveHeatId db race_id
    let c1 := if maxCacheSize ≤ c.length then c.tail else c
    (heat_id, c1 ++ [(race_id, heat_id)])

/-- Resolve a list of race ids through the cache in order, keeping only
the final cache state (scenario driver for the cache theorems). -/
def fillCache (db : DB) (ids : List Nat) (c : Cache) : Cache :=
  ids.foldl (fun c i => (get_race_heat_id db c i).2) c

/-! ## Heat and pilot-run resolution -/

/-- The attribute-probing for a heat's owning class in
`_get_class_heat_ids`: `class_id`, then `raceclass_id`, then
`race_class_id`. -/
def heatClassOf (h : Heat) : Option Nat :=
  match h.class_id with
  | Option.some c => Option.some c
  | Option.none =>
    match h.raceclass_id with
    | Option.some c => Option.some c
    | Option.none => h.race_class_id

/-- Embedding of `_get_class_heat_ids`: ids of the heats whose resolved
owning class equals the race class id (empty when the class id is
missing).  The Python `set` is modelled as a list used only for
membership and emptiness. -/
def get_class_heat_ids (db : DB) (rc : RaceClass) : List Nat :=
  match rc.id with
  | Option.none => []
  | Option.some cid =>
    (db.heats.filter (fun h => heatClassOf h = Option.some cid)).map (fun h => h.id)

/-- Embedding of `_build_pilotrun_heat_map`: walks all pilot runs
(skipping unassigned ones), resolves the heat of each run's first lap
through the cache, and keeps the run when no class filter is given or
the heat is in the class.  Returns the run→heat map, the run dictionary,
and the updated cache. -/
def build_pilotrun_heat_map (db : DB) (class_heat_ids : List Nat) (c : Cache) :
    List (Nat × Nat) × List (Nat × PilotRun) × Cache :=
  db.pilotruns.foldl
    (fun acc run =>
      if run.pilot_id = 0 then acc
      else
        let runDict := acc.2.1 ++ [(run.id, run)]
        match db.laps_by_pilotrun run.id with
        | [] => (acc.1, runDict, acc.2.2)
        | lap0 :: _ =>
          let res := get_race_heat_id db acc.2.2 lap0.race_id
          if class_heat_ids.isEmpty ∨ res.1 ∈ class_heat_ids then
            (acc.1 ++ [(run.id, res.1)], runDict, res.2)
          else
            (acc.1, runDict, res.2))
    ([], [], c)

/-! ## Pilot extraction (`_extract_pilot_data`) -/

/-- One row of the pilot table `(Pilot id, Pilot Name, Colour)`. -/
structure PilotRow where
  pilotId : Nat
  pilotName : String
  colour : String
deriving DecidableEq, Repr

/-- Python `dict` lookup on an insertion-ordered association list:
the last binding of a key wins. -/
def dictGetLast {α : Type} (l : List (Nat × α)) (k : Nat) : Option α :=
  ((l.reverse).find? (fun e => e.1 = k)).map (fun e => e.2)

/-- Python `set.add`, modelled with insertion order. -/
def insertSet (s : List Nat) (x : Nat) : List Nat :=
  if x ∈ s then s else s ++ [x]

/-- The dictionary `{pilot.id: pilot}`. -/
def pilotDict (ps : List Pilot) : List (Nat × Pilot) :=
  ps.map (fun p => (p.id, p))

/-- One step of the pilot-set accumulation in `_extract_pilot_data`:
add the run's pilot id when the run's heat is in the class and the
pilot is assigned. -/
def pilotSetStep (run_dict : List (Nat × PilotRun)) (class_heat_ids : List Nat)
    (s : List Nat) (e : Nat × Nat) : List Nat :=
  if e.2 ∈ class_heat_ids then
    match dictGetLast run_dict e.1 with
    | Option.some run => if run.pilot_id ≠ 0 then insertSet s run.pilot_id else s
    | Option.none => s
  else s

/-- The distinct pilot ids having runs in the class's heats (the
`pilot_set` of `_extract_pilot_data`). -/
def pilotSetOf (heat_map : List (Nat × Nat)) (run_dict : List (Nat × PilotRun))
    (class_heat_ids : List Nat) : List Nat :=
  heat_map.foldl (pilotSetStep run_dict class_heat_ids) []

/-- The pilot-table row of one pilot record. -/
def pilotRowOf (p : Pilot) : PilotRow :=
  { pilotId := p.id, pilotName := p.callsign, colour := p.color }

/-- Embedding of `_extract_pilot_data`: pilots having runs in the
class's heats; when no heats resolve to the class, the full pilot
roster is returned as an explicit fallback. -/
def extract_pilot_data (db : DB) (rc : RaceClass) (c : Cache) : List PilotRow × Cache :=
  let class_heat_ids := get_class_heat_ids db rc
  let bpm := build_pilotrun_heat_map db class_heat_ids c
  let pilot_set : List Nat :=
    if 0 < class_heat_ids.length then pilotSetOf bpm.1 bpm.2.1 class_heat_ids else []
  let rows : List PilotRow :=
    if 0 < class_heat_ids.length then
      pilot_set.filterMap
        (fun pid => (dictGetLast (pilotDict db.pilots) pid).map pilotRowOf)
    else
      db.pilots.map pilotRowOf
  (rows, bpm.2.2)

/-! ## Consecutive-window extraction (`_extract_consecutive_data`) -/

/-- The whitespace tokens of the text before the first `/` of a
descriptor (`displayname.split("/")[0].strip().split()`). -/
def firstPartWords (displayname : String) : List (List Char) :=
  ((trimChars (((displayname.toList).splitOn '/').headD [])).splitOnP
    Char.isWhitespace).filter (fun w => ¬ w.isEmpty)

/-- The text fallback of the round extraction: first integer token of
the part before the first `/`; `0` when the descriptor is empty or no
token parses. -/
def textRoundFallback (displayname : String) : Int :=
  if (displayname.toList).isEmpty then 0
  else
    match (firstPartWords displayname).findSome? parseIntChars with
    | Option.some n => n
    | Option.none => 0

/-- The round-number extraction of `_extract_consecutive_data`: the
structured `round` field of the source when the `heat` flag is truthy,
with the text fallback when that value is 0; a missing `round` key
raises and is caught, yielding 0 with no fallback. -/
def extractRoundNumber (p : ConsecPilot) : Int :=
  let heatFlag :=
    match p.consecutives_source with
    | Option.some src => src.heat
    | Option.none => false
  if heatFlag then
    match (match p.consecutives_source with
           | Option.some src => src.round
           | Option.none => Option.none) with
    | Option.none => 0
    | Option.some r =>
      if r = 0 then
        textRoundFallback
          (match p.consecutives_source with
           | Option.some src => src.displayname
           | Option.none => "")
      else r
  else
    textRoundFallback
      (match p.consecutives_source with
       | Option.some src => src.displayname
       | Option.none => "")

/-- One row of the consecutive-window table.  In the source the column
names are parameterised by the window size N (`Best N Consecutive ...`);
in this typed model the fields are fixed and the base is carried
separately, so the column-name machinery is the identity. -/
structure ConsecRow where
  pilotId : Nat
  time : ℚ
  round : Int
  lapStart : Int
  nLaps : Int
deriving DecidableEq, Repr

/-- Embedding of `_extract_consecutive_data`.  The
`consecutive_laps_base` argument only names the columns in the source
and does not affect row contents, so it is not consumed here.  Entries
with `laps = 0` get an all-zero window; the best consecutive time is
coerced from a number or parsed from a formatted string. -/
def extract_consecutive_data (results : RaceClassResults) : List ConsecRow :=
  match results.by_consecutives with
  | Option.none => []
  | Option.some ps =>
    ps.map
      (fun p =>
        if 0 < p.laps then
          { pilotId := p.pilot_id
            time :=
              match p.consecutives with
              | .str s => parse_lap_time s
              | .num q => q
              | .none => 0
            round := extractRoundNumber p
            lapStart := (p.consecutive_lap_start).getD 0
            nLaps := (p.consecutives_base).getD 0 }
        else
          { pilotId := p.pilot_id, time := 0, round := 0, lapStart := 0, nLaps := 0 })

/-! ## Round-number resolution (`_get_round_number`) -/

/-- Probing a race object for a round number: `round_id` (if truthy)
through the optional `round_by_id` API, then the `round` attribute, then
`round_number`. -/
def roundFromRace (db : DB) (race : Race) : Option Int :=
  let viaRoundId : Option Int :=
    match race.round_id with
    | Option.some rid =>
      if rid ≠ 0 then
        match db.round_by_id with
        | Option.some f =>
          match f rid with
          | Option.some robj => robj.round_number
          | Option.none => Option.none
        | Option.none => Option.none
      else Option.none
    | Option.none => Option.none
  match viaRoundId with
  | Option.some n => Option.some n
  | Option.none =>
    match race.round with
    | Option.some v => Option.some v
    | Option.none => race.round_number

/-- Probing a pilot-run object for a round number through the optional
`pilotrun_by_id` API, mirroring `roundFromRace`. -/
def roundFromRun (db : DB) (pilotrun_id : Nat) : Option Int :=
  match db.pilotrun_by_id with
  | Option.none => Option.none
  | Option.some f =>
    match f pilotrun_id with
    | Option.none => Option.none
    | Option.some run =>
      let viaRoundId : Option Int :=
        match run.round_id with
        | Option.some rid =>
          if rid ≠ 0 then
            match db.round_by_id with
            | Option.some g =>
              match g rid with
              | Option.some robj => robj.round_number
              | Option.none => Option.none
            | Option.none => Option.none
          else Option.none
        | Option.none => Option.none
      match viaRoundId with
      | Option.some n => Option.some n
      | Option.none =>
        match run.round with
        | Option.some v => Option.some v
        | Option.none => run.round_number

/-- Embedding of `_get_round_number`: best-effort probing of race then
pilot-run metadata; a raising race lookup is caught and yields 0; 0 also
when nothing resolves (the caller then falls back to the run's
1-indexed position). -/
def get_round_number (db : DB) (lap : Lap) (pilotrun_id : Nat) : Int :=
  match db.race_by_id lap.race_id with
  | .error _ => 0
  | .ok raceOpt =>
    let fromRace : Option Int :=
      match raceOpt with
      | Option.some race => roundFromRace db race
      | Option.none => Option.none
    match fromRace with
    | Option.some n => n
    | Option.none =>
      match roundFromRun db pilotrun_id with
      | Option.some n => n
      | Option.none => 0

/-! ## Lap extraction (`_extract_lap_data`) -/

/-- One row of the lap table
`(Pilot id, Pilot Name, Heat, Lap Time, Round, Lap, Best Q, Fastest Lap, Heat Color)`. -/
structure LapRow where
  pilotId : Nat
  pilotName : String
  heat : Nat
  lapTime : ℚ
  round : Int
  lap : Nat
  bestQ : Nat
  fastestLap : Nat
  heatColor : Nat
deriving DecidableEq, Repr

/-- The per-pilot consecutive data fetched before the run loop: present
only for win condition 4 with a nonempty consecutive table, and then the
first row for the pilot id. -/
def windowFor (win_condition : Int) (consecutive_df : Option (List ConsecRow)) (pid : Nat) :
    Option ConsecRow :=
  match consecutive_df with
  | Option.some df =>
    if win_condition = 4 ∧ 0 < df.length then df.find? (fun r => r.pilotId = pid)
    else Option.none
  | Option.none => Option.none

/-- The per-lap `Best Q` computation: 1 exactly when win condition is 4,
the pilot has window data, the lap's resolved round equals the window's
round, the lap is not the holeshot, and the lap index lies in
`[adjusted_start, adjusted_start + nLaps)` where a reported start of 0 is
remapped to 1. -/
def bestQFlag (win_condition : Int) (window : Option ConsecRow) (actual_round : Int)
    (lap_idx : Nat) : Nat :=
  match window with
  | Option.none => 0
  | Option.some w =>
    if win_condition = 4 then
      if actual_round = w.round then
        if 0 < lap_idx then
          let adjusted_start : Int := if w.lapStart = 0 then 1 else w.lapStart
          if adjusted_start ≤ (lap_idx : Int) ∧ (lap_idx : Int) < adjusted_start + w.nLaps then 1
          else 0
        else 0
      else 0
    else 0

/-- The rows produced for the laps of one run: non-deleted laps, with
parsed time, the run's heat and resolved round, and the `Best Q` flag;
`Fastest Lap` is set later. -/
def runRows (pid : Nat) (name : String) (win_condition : Int) (window : Option ConsecRow)
    (heat_id : Nat) (actual_round : Int) (laps : List Lap) : List LapRow :=
  laps.enum.filterMap
    (fun e =>
      if e.2.deleted ≠ 0 then Option.none
      else
        Option.some
          { pilotId := pid
            pilotName := name
            heat := heat_id
            lapTime := parse_lap_time e.2.lap_time_formatted
            round := actual_round
            lap := e.1
            bestQ := bestQFlag win_condition window actual_round e.1
            fastestLap := 0
            heatColor := heat_id })

/-- Processing of one run inside `_extract_lap_data`: heat id through
the cache, actual round through `_get_round_number` with the 1-indexed
positional fallback, then the lap rows. -/
def processRun (db : DB) (c : Cache) (pid : Nat) (name : String) (win_condition : Int)
    (window : Option ConsecRow) (round_idx : Nat) (run_id : Nat) : List LapRow × Cache :=
  match db.laps_by_pilotrun run_id with
  | [] => ([], c)
  | lap0 :: rest =>
    let res := get_race_heat_id db c lap0.race_id
    let r := get_round_number db lap0 run_id
    let actual_round : Int := if r = 0 then (round_idx : Int) + 1 else r
    (runRows pid name win_condition window res.1 actual_round (lap0 :: rest), res.2)

/-- One iteration of the run loop: process the run and append its rows. -/
def pilotRunsStep (db : DB) (pid : Nat) (name : String) (win_condition : Int)
    (window : Option ConsecRow) (acc : List LapRow × Cache) (e : Nat × Nat) :
    List LapRow × Cache :=
  let res := processRun db acc.2 pid name win_condition window e.1 e.2
  (acc.1 ++ res.1, res.2)

/-- The run loop for one pilot, in arrival order with positional index. -/
def pilotLapRows (db : DB) (pid : Nat) (name : String) (win_condition : Int)
    (window : Option ConsecRow) (run_ids : List Nat) (c : Cache) : List LapRow × Cache :=
  run_ids.enum.foldl (pilotRunsStep db pid name win_condition window) ([], c)

/-- Append a run id to a pilot's group, creating the group on first
sight (Python dict insertion order). -/
def upsertRun (groups : List (Nat × List Nat)) (pid run_id : Nat) : List (Nat × List Nat) :=
  if groups.any (fun g => g.1 = pid) then
    groups.map (fun g => if g.1 = pid then (g.1, g.2 ++ [run_id]) else g)
  else groups ++ [(pid, [run_id])]

/-- Grouping of pilot runs by pilot id restricted to the class's heats
(the `pilot_runs` dictionary of `_extract_lap_data`). -/
def groupRuns (heat_map : List (Nat × Nat)) (run_dict : List (Nat × PilotRun))
    (class_heat_ids : List Nat) : List (Nat × List Nat) :=
  heat_map.foldl
    (fun groups e =>
      if e.2 ∈ class_heat_ids then
        match dictGetLast run_dict e.1 with
        | Option.some run =>
          if run.pilot_id ≠ 0 then upsertRun groups run.pilot_id run.id else groups
        | Option.none => groups
      else groups)
    []

/-- A pilot's minimum lap time over non-holeshot rows of the lap table
(the grouped `min` used for the `Fastest Lap` pass). -/
def pilotMinRegular (rows : List LapRow) (pid : Nat) : Option ℚ :=
  ((rows.filter (fun r => r.pilotId = pid ∧ 0 < r.lap)).map (fun r => r.lapTime)).min?

/-- The per-row fastest-lap update: flag the row when it is a
non-holeshot row attaining its pilot's minimum non-holeshot time over
`rows`. -/
def fastestMark (rows : List LapRow) (r : LapRow) : LapRow :=
  if 0 < r.lap ∧ pilotMinRegular rows r.pilotId = Option.some r.lapTime then
    { r with fastestLap := 1 }
  else r

/-- The vectorised `Fastest Lap` pass for win condition 3: flag every
non-holeshot row whose time equals its pilot's minimum non-holeshot
time. -/
def markFastest (win_condition : Int) (rows : List LapRow) : List LapRow :=
  if win_condition = 3 ∧ ¬ rows.isEmpty then rows.map (fastestMark rows)
  else rows

/-- One iteration over a pilot's run group: look the pilot up in the
pilot table (skipping unknown pilots), fetch the pilot's window data,
and append the pilot's lap rows. -/
def lapGroupsStep (db : DB) (win_condition : Int) (pilot_df : List PilotRow)
    (consecutive_df : Option (List ConsecRow)) (acc : List LapRow × Cache)
    (g : Nat × List Nat) : List LapRow × Cache :=
  match dictGetLast (pilot_df.map (fun p => (p.pilotId, p.pilotName))) g.1 with
  | Option.none => acc
  | Option.some name =>
    let window := windowFor win_condition consecutive_df g.1
    let res := pilotLapRows db g.1 name win_condition window g.2 acc.2
    (acc.1 ++ res.1, res.2)

/-- Embedding of `_extract_lap_data`.  The source's defensive
column-name re-inference on `consecutive_df` is the identity in this
typed model (the `ConsecRow` fields always "match").  The final
`consecutive_laps_base` parameter of the source influences only those
column names and is therefore absent here. -/
def extract_lap_data (db : DB) (rc : RaceClass) (win_condition : Int)
    (pilot_df : List PilotRow) (consecutive_df : Option (List ConsecRow)) (c : Cache) :
    List LapRow × Cache :=
  if pilot_df.isEmpty then ([], c)
  else
    let class_heat_ids := get_class_heat_ids db rc
    let bpm := build_pilotrun_heat_map db class_heat_ids c
    let groups := groupRuns bpm.1 bpm.2.1 class_heat_ids
    let folded :=
      groups.foldl (lapGroupsStep db win_condition pilot_df consecutive_df)
        (([] : List LapRow), bpm.2.2)
    (markFastest win_condition folded.1, folded.2)

/-! ## Win-condition resolution (`_get_win_condition`) -/

/-- The attribute-probing chain reaching the race format from the race
class: `format_id` through `raceformat_by_id`, else the `raceformat`
attribute, else the `format` attribute. -/
def getRaceformat (db : DB) (rc : RaceClass) : Option RaceFormat :=
  match rc.format_id with
  | Option.some fid => db.raceformat_by_id fid
  | Option.none =>
    match rc.raceformat with
    | Option.some f => Option.some f
    | Option.none => rc.format

/-- The `by_consecutives` fallback of `_get_win_condition`: 4 when the
class results are truthy and contain the section, else the default 0.
A raising results lookup is caught and also yields 0, which `none`
covers. -/
def winConditionFallback (db : DB) : Int :=
  match db.raceclass_results with
  | Option.some res => if (res.by_consecutives).isSome then 4 else 0
  | Option.none => 0

/-- Embedding of `_get_win_condition`: the format's `win_condition` when
the format is reachable and carries one, else the `by_consecutives`
fallback.  Total by construction — every access failure is an `Option`
case — which models "never raises". -/
def get_win_condition (db : DB) (rc : RaceClass) : Int :=
  match getRaceformat db rc with
  | Option.some f =>
    match f.win_condition with
    | Option.some wc => wc
    | Option.none => winConditionFallback db
  | Option.none => winConditionFallback db

/-! ## Plot assembly (`_generate_plot`) -/

/-- The `get_priority` sort key of `_generate_plot` for win condition 4:
pilots with no window data sort with priority 999999, others with the
window-size deficit `base - n_laps`. -/
def getPriority (consecutive_laps_base : Int) (n_laps : Int) : Int :=
  if n_laps = 0 then 999999 else consecutive_laps_base - n_laps

/-- The ascending sort order used on the consecutive table:
`sort_values(["_sort_priority", time_col])`. -/
def consecSortRel (consecutive_laps_base : Int) (a b : ConsecRow) : Prop :=
  getPriority consecutive_laps_base a.nLaps < getPriority consecutive_laps_base b.nLaps ∨
    (getPriority consecutive_laps_base a.nLaps = getPriority consecutive_laps_base b.nLaps ∧
      a.time ≤ b.time)

instance (consecutive_laps_base : Int) : DecidableRel (consecSortRel consecutive_laps_base) :=
  fun a b => by unfold consecSortRel; infer_instance

/-- The ascending sort order on `(pilot id, best lap)` pairs used for
all other win conditions (`pilot_best_laps.sort_values`). -/
def bestSortRel (a b : Nat × ℚ) : Prop := a.2 ≤ b.2

instance : DecidableRel bestSortRel := fun a b => by unfold bestSortRel; infer_instance

/-- The distinct pilot ids having non-holeshot rows, in ascending id
order (the index of the pandas groupby, which sorts by key). -/
def regularPilotIds (lap_df : List LapRow) : List Nat :=
  List.insertionSort (fun a b => a ≤ b)
    (((lap_df.filter (fun r => 0 < r.lap)).map (fun r => r.pilotId)).dedup)

/-- `pilot_best_laps`: each regular pilot with their minimum
non-holeshot lap time. -/
def pilotBestLapsTable (lap_df : List LapRow) : List (Nat × ℚ) :=
  (regularPilotIds lap_df).filterMap
    (fun pid => (pilotMinRegular lap_df pid).map (fun t => (pid, t)))

/-- The pilot ordering of all win conditions other than the
fastest-consecutive case: ascending by best non-holeshot lap time. -/
def bestLapOrder (lap_df : List LapRow) : List Nat :=
  (List.insertionSort bestSortRel (pilotBestLapsTable lap_df)).map (fun p => p.1)

/-- Embedding of the pilot-ordering block of `_generate_plot`: for win
condition 4 with a nonempty consecutive table, ascending by
`(_sort_priority, best consecutive time)`; otherwise ascending by best
single lap.  Ties are ordered deterministically here (stable sort); the
theorems state only sortedness and permutation, which any pandas tie
order satisfies. -/
def pilotOrder (win_condition : Int) (lap_df : List LapRow)
    (consecutive_df : Option (List ConsecRow)) (consecutive_laps_base : Int) : List Nat :=
  match consecutive_df with
  | Option.some df =>
    if win_condition = 4 ∧ 0 < df.length then
      (List.insertionSort (consecSortRel consecutive_laps_base) df).map (fun r => r.pilotId)
    else bestLapOrder lap_df
  | Option.none => bestLapOrder lap_df

/-- The pilots of the rendered y-axis: the plot loop walks
`reversed(pilot_order)` and skips pilots absent from the pilot table. -/
def axisPilots (pilot_df : List PilotRow) (order : List Nat) : List Nat :=
  (order.reverse).filter (fun pid => (pilot_df.find? (fun p => p.pilotId = pid)).isSome)

/-- The y-axis tick labels (`custom_ytics`): the names of the axis
pilots. -/
def axisLabels (pilot_df : List PilotRow) (order : List Nat) : List String :=
  (order.reverse).filterMap
    (fun pid => (pilot_df.find? (fun p => p.pilotId = pid)).map (fun p => p.pilotName))

/-- Embedding of the title block of `_generate_plot`. -/
def plotTitle (win_condition : Int) (event_name raceformat_name raceclass_name : String)
    (consecutive_laps_base : Int) : String :=
  if win_condition = 4 then
    if ¬ raceformat_name.isEmpty ∧ ¬ raceclass_name.isEmpty then
      raceformat_name ++ " - " ++ raceclass_name ++ " - " ++ toString consecutive_laps_base ++
        " Consecutive Laps - Lap Times"
    else if ¬ raceclass_name.isEmpty then
      raceclass_name ++ " - " ++ toString consecutive_laps_base ++ " Consecutive Laps - Lap Times"
    else
      toString consecutive_laps_base ++ " Consecutive Laps - Lap Times"
  else
    if ¬ raceformat_name.isEmpty ∧ ¬ raceclass_name.isEmpty then
      raceformat_name ++ " - " ++ raceclass_name ++ " - Lap Times"
    else if ¬ raceclass_name.isEmpty then
      raceclass_name ++ " - Lap Times"
    else if ¬ raceformat_name.isEmpty then
      raceformat_name ++ " - Lap Times"
    else
      event_name ++ " - Lap Times"

/-- `_wrap_plot_html`: the RotorHazard page shell around the chart body. -/
def wrap_plot_html (plot_html : String) : String :=
  "<!DOCTYPE html><html><head><title>Event Results Plot</title></head><body>" ++
    plot_html ++ "</body></html>"

/-- The declarative chart description reduced to the observable pieces
the specification talks about: the title and the y-axis labels.  The
chart-rendering library is an external opaque renderer. -/
def plotHtmlBody (pilot_df : List PilotRow) (lap_df : List LapRow) (win_condition : Int)
    (event_name raceformat_name raceclass_name : String)
    (consecutive_df : Option (List ConsecRow)) (consecutive_laps_base : Int) : String :=
  let order := pilotOrder win_condition lap_df consecutive_df consecutive_laps_base
  (plotTitle win_condition event_name raceformat_name raceclass_name consecutive_laps_base) ++
    (axisLabels pilot_df order).foldl (fun a b => a ++ "|" ++ b) ""

/-- The render step (`fig.to_html` plus wrapping); the opaque external
renderer may raise, which the outer boundary of `generate_plot`
catches. -/
def renderPlot (db : DB) (pilot_df : List PilotRow) (lap_df : List LapRow)
    (win_condition : Int) (event_name raceformat_name raceclass_name : String)
    (consecutive_df : Option (List ConsecRow)) (consecutive_laps_base : Int) :
    Except String String :=
  match db.render_error with
  | Option.some e => .error e
  | Option.none =>
    .ok (wrap_plot_html (plotHtmlBody pilot_df lap_df win_condition event_name raceformat_name
      raceclass_name consecutive_df consecutive_laps_base))

/-! ## The orchestrator (`generate_plot`) -/

/-- The outcome of one `generate_plot` call.  The source returns HTML
strings in every case; the constructors record which user-visible page
was produced, so that the error policy is statable. -/
inductive GenerateResult where
  | invalidClass (msg : String)
  | noRaces (class_name : String)
  | noPilots (class_name : String)
  | noLaps (class_name : String)
  | page (html : String)
  | genericError (msg : String)
deriving DecidableEq, Repr

/-- The `consecutive_laps_base` read from the race format
(`consecutive_laps_base`, else `consecutives_base`, else the default 3). -/
def formatBase (fmt : Option RaceFormat) : Int :=
  match fmt with
  | Option.some f =>
    match f.consecutive_laps_base with
    | Option.some b => b
    | Option.none =>
      match f.consecutives_base with
      | Option.some b => b
      | Option.none => 3
  | Option.none => 3

/-- The fallback scan of `raceclass_results` for a truthy
`consecutives_base` of some pilot. -/
def resultsBase (res : RaceClassResults) : Option Int :=
  match res.by_consecutives with
  | Option.none => Option.none
  | Option.some ps =>
    ps.findSome?
      (fun p =>
        match p.consecutives_base with
        | Option.some b => if b ≠ 0 then Option.some b else Option.none
        | Option.none => Option.none)

/-- The consecutive-data stage of `generate_plot` for win condition 4:
extract the table, then refine a still-default base first from the
results' `consecutives_base`, then from the maximum `nLaps` of the
table (re-extraction is the identity on the typed rows). -/
def consecStage (db : DB) (base0 : Int) : Option (List ConsecRow) × Int :=
  match db.raceclass_results with
  | Option.none => (Option.none, base0)
  | Option.some res =>
    let df := extract_consecutive_data res
    let base1 :=
      if base0 = 3 then
        match resultsBase res with
        | Option.some b => b
        | Option.none => base0
      else base0
    let base2 :=
      if base1 = 3 ∧ ¬ df.isEmpty then
        let m := ((df.map (fun r => r.nLaps)).max?).getD 0
        if 0 < m then m else base1
      else base1
    (Option.some df, base2)

/-- Embedding of `generate_plot`: validation, the no-races / no-pilots /
no-laps guards, win-condition resolution, the extraction pipeline, and
the outer boundary that turns a raising render into a generic error
page.  Total by construction — every failure of a modelled collaborator
is an explicit case — which models "never raises to its caller". -/
def generate_plot (db : DB) (rcOpt : Option RaceClass) (c : Cache) : GenerateResult × Cache :=
  match rcOpt with
  | Option.none => (.invalidClass "Race class is None", c)
  | Option.some rc =>
    match rc.id with
    | Option.none => (.invalidClass "Race class missing id attribute", c)
    | Option.some _ =>
      if db.races.isEmpty then (.noRaces ((rc.name).getD "Unknown"), c)
      else
        let event_name := db.event_name
        let raceclass_name := (rc.name).getD ""
        let fmtOpt := getRaceformat db rc
        let raceformat_name := (fmtOpt.bind (fun f => f.name)).getD ""
        let base0 := formatBase fmtOpt
        let win_condition := get_win_condition db rc
        let pd := extract_pilot_data db rc c
        if pd.1.isEmpty then (.noPilots ((rc.name).getD "Unknown"), pd.2)
        else
          let cd :=
            if win_condition = 4 then consecStage db base0 else (Option.none, base0)
          let vbase :=
            if win_condition = 4 ∧ (cd.2 ≤ 0 ∨ 100 < cd.2) then 3 else cd.2
          let ld := extract_lap_data db rc win_condition pd.1 cd.1 pd.2
          if ld.1.isEmpty then (.noLaps ((rc.name).getD "Unknown"), ld.2)
          else
            match renderPlot db pd.1 ld.1 win_condition event_name raceformat_name
                raceclass_name cd.1 vbase with
            | .error e => (.genericError e, ld.2)
            | .ok html => (.page html, ld.2)

/-! ## Shared example data for witnesses -/

/-- A data source with no records and no failures. -/
def dbEmpty : DB where
  pilots := []
  heats := []
  races := []
  pilotruns := []
  laps_by_pilotrun := fun _ => []
  race_by_id := fun _ => .ok Option.none
  round_by_id := Option.none
  pilotrun_by_id := Option.none
  raceformat_by_id := fun _ => Option.none
  raceclass_results := Option.none
  event_name := "Event"
  render_error := Option.none

/-- A race format whose scoring rule is 3 (fastest single lap). -/
def fmtWin3 : RaceFormat where
  win_condition := Option.some 3
  name := Option.none
  consecutive_laps_base := Option.none
  consecutives_base := Option.none

/-- A race class carrying `fmtWin3` directly. -/
def rcWithFormat : RaceClass where
  id := Option.some 1
  name := Option.none
  format_id := Option.none
  raceformat := Option.some fmtWin3
  format := Option.none

/-- A race class with an id but no reachable race format. -/
def rcBare : RaceClass where
  id := Option.some 1
  name := Option.none
  format_id := Option.none
  raceformat := Option.none
  format := Option.none

/-- A data source whose class results contain a `by_consecutives`
section. -/
def dbWithConsecSection : DB :=
  { dbEmpty with raceclass_results := Option.some { by_consecutives := Option.some [] } }

/-! ## C3 — win-condition resolution -/

/-- C3: `_get_win_condition` resolves in order: (a) a reachable race
format carrying `win_condition` wins; (b) otherwise a `by_consecutives`
section in the class results gives 4; (c) otherwise 0 — in particular 0
when the format is unreachable and no consecutive section exists.  The
embedding is total, which models "never raises". -/
theorem claim_C3_win_condition_resolution (db : DB) (rc : RaceClass) :
    (∀ f w, getRaceformat db rc = Option.some f → f.win_condition = Option.some w →
      get_win_condition db rc = w) ∧
    (((getRaceformat db rc).bind (fun f => f.win_condition)) = Option.none →
      ((((db.raceclass_results).bind (fun r => r.by_consecutives)).isSome = true →
        get_win_condition db rc = 4) ∧
      (((db.raceclass_results).bind (fun r => r.by_consecutives)) = Option.none →
        get_win_condition db rc = 0))) := by
  constructor
  · intro f w hf hw
    simp only [get_win_condition, hf, hw]
  · intro hnone
    constructor
    · intro hsome
      cases hf : getRaceformat db rc with
      | none =>
        cases hdb : db.raceclass_results with
        | none => simp_all
        | some res => simp_all [get_win_condition, winConditionFallback]
      | some f =>
        cases hdb : db.raceclass_results with
        | none => simp_all
        | some res => simp_all [get_win_condition, winConditionFallback]
    · intro hmiss
      cases hf : getRaceformat db rc with
      | none =>
        cases hdb : db.raceclass_results with
        | none => simp_all [get_win_condition, winConditionFallback]
        | some res => simp_all [get_win_condition, winConditionFallback]
      | some f =>
        cases hdb : db.raceclass_results with
        | none => simp_all [get_win_condition, winConditionFallback]
        | some res => simp_all [get_win_condition, winConditionFallback]

/-- Witness: the three resolution cases realised at concrete inputs. -/
theorem claim_C3_witness :
    get_win_condition dbEmpty rcWithFormat = 3 ∧
    get_win_condition dbWithConsecSection rcBare = 4 ∧
    get_win_condition dbEmpty rcBare = 0 :=
  ⟨(claim_C3_win_condition_resolution dbEmpty rcWithFormat).1 fmtWin3 3 rfl rfl,
   ((claim_C3_win_condition_resolution dbWithConsecSection rcBare).2 rfl).1 rfl,
   ((claim_C3_win_condition_resolution dbEmpty rcBare).2 rfl).2 rfl⟩

/-! ## C6 — round-number text fallback -/

/-- A `by_consecutives` entry whose source has structured round 0 and
the descriptor `"Heat 3 / Round 2"`. -/
def consecPilotHeat3Round2 : ConsecPilot where
  pilot_id := 5
  laps := 4
  consecutives_source :=
    Option.some { heat := true, round := Option.some 0, displayname := "Heat 3 / Round 2" }
  consecutives := .num 60
  consecutive_lap_start := Option.some 1
  consecutives_base := Option.some 3

/-- The results dictionary holding exactly that entry. -/
def resultsHeat3Round2 : RaceClassResults where
  by_consecutives := Option.some [consecPilotHeat3Round2]

/-- C6 counterexample: for the descriptor `"Heat 3 / Round 2"` with a
structured round of 0, `_extract_consecutive_data` recovers round 3 —
the first integer token before the `/`, which sits in the heat part —
not round 2 as the claim states. -/
theorem claim_C6_counterexample :
    ((extract_consecutive_data resultsHeat3Round2).map (fun r => r.round)) = [3] ∧
    ((extract_consecutive_data resultsHeat3Round2).map (fun r => r.round)) ≠ [2] := by
  constructor
  · rfl
  · decide

/-- C6 amended: when the structured round is 0 (or the heat flag is
falsy) the round is recovered by scanning the tokens of the descriptor
text before the first `/` for the first parseable integer, so
`"Heat 3 / Round 2"` yields round 3; a descriptor whose pre-`/` part
holds no integer token yields 0; and a missing structured round key
(with a truthy heat flag) raises internally and yields 0 with no text
fallback. -/
theorem claim_C6_round_fallback (p : ConsecPilot) (src : ConsecSource) :
    (p.consecutives_source = Option.some src → src.heat = true →
      src.round = Option.some 0 →
      extractRoundNumber p = textRoundFallback src.displayname) ∧
    (p.consecutives_source = Option.some src → src.heat = false →
      extractRoundNumber p = textRoundFallback src.displayname) ∧
    (p.consecutives_source = Option.some src → src.heat = true →
      src.round = Option.none → extractRoundNumber p = 0) ∧
    (textRoundFallback "Heat 3 / Round 2" = 3) ∧
    (∀ s, (∀ w ∈ firstPartWords s, parseIntChars w = Option.none) →
      textRoundFallback s = 0) := by
  refine ⟨?_, ?_, ?_, by decide, ?_⟩
  · intro hsrc hheat hround
    simp [extractRoundNumber, hsrc, hheat, hround]
  · intro hsrc hheat
    simp [extractRoundNumber, hsrc, hheat]
  · intro hsrc hheat hround
    simp [extractRoundNumber, hsrc, hheat, hround]
  · intro s hnone
    unfold textRoundFallback
    rw [List.findSome?_eq_none_iff.mpr hnone]
    simp

/-- Witness: the text fallback case realised on the concrete entry. -/
theorem claim_C6_witness : extractRoundNumber consecPilotHeat3Round2 = 3 := by
  have h := claim_C6_round_fallback consecPilotHeat3Round2
    { heat := true, round := Option.some 0, displayname := "Heat 3 / Round 2" }
  rw [h.1 rfl rfl rfl]
  exact h.2.2.2.1

/-! ## C9 — title composition -/

/-- The title precedence exactly as the claim words it: format+class,
else class, else format, else event name; with `"{N} Consecutive Laps"`
appended (before the constant `"Lap Times"` suffix) when the win
condition is 4. -/
def claimTitle (win_condition : Int) (event_name raceformat_name raceclass_name : String)
    (consecutive_laps_base : Int) : String :=
  let nameBase :=
    if ¬ raceformat_name.isEmpty ∧ ¬ raceclass_name.isEmpty then
      raceformat_name ++ " - " ++ raceclass_name
    else if ¬ raceclass_name.isEmpty then raceclass_name
    else if ¬ raceformat_name.isEmpty then raceformat_name
    else event_name
  if win_condition = 4 then
    nameBase ++ " - " ++ toString consecutive_laps_base ++ " Consecutive Laps - Lap Times"
  else
    nameBase ++ " - Lap Times"

/-- C9 counterexample: with win condition 4, a nonempty format name and
an empty class name, the code titles the chart
`"3 Consecutive Laps - Lap Times"`, dropping the format name that the
claimed precedence (format-name alone before the event fallback) would
include. -/
theorem claim_C9_counterexample :
    plotTitle 4 "EventX" "FormatF" "" 3 = "3 Consecutive Laps - Lap Times" ∧
    plotTitle 4 "EventX" "FormatF" "" 3 ≠ claimTitle 4 "EventX" "FormatF" "" 3 ∧
    claimTitle 4 "EventX" "FormatF" "" 3 = "FormatF - 3 Consecutive Laps - Lap Times" := by
  refine ⟨by decide, by decide, by decide⟩

/-- C9 amended: the claimed precedence (format+class > class > format >
event, with the consecutive segment appended for win condition 4) holds
for every win condition other than 4 and, for win condition 4, whenever
the class name is nonempty; when the win condition is 4 and the class
name is empty the title is `"{N} Consecutive Laps - Lap Times"` with no
name prefix, regardless of the format and event names. -/
theorem claim_C9_title (win_condition : Int)
    (event_name raceformat_name raceclass_name : String) (consecutive_laps_base : Int) :
    (win_condition ≠ 4 →
      plotTitle win_condition event_name raceformat_name raceclass_name consecutive_laps_base =
        claimTitle win_condition event_name raceformat_name raceclass_name
          consecutive_laps_base) ∧
    (¬ raceclass_name.isEmpty →
      plotTitle win_condition event_name raceformat_name raceclass_name consecutive_laps_base =
        claimTitle win_condition event_name raceformat_name raceclass_name
          consecutive_laps_base) ∧
    (win_condition = 4 → raceclass_name.isEmpty →
      plotTitle win_condition event_name raceformat_name raceclass_name consecutive_laps_base =
        toString consecutive_laps_base ++ " Consecutive Laps - Lap Times") := by
  refine ⟨?_, ?_, ?_⟩
  · intro h4
    unfold plotTitle claimTitle
    rw [if_neg h4, if_neg h4]
    by_cases hf : raceformat_name.isEmpty <;> by_cases hc : raceclass_name.isEmpty <;>
      simp [hf, hc]
  · intro hc
    unfold plotTitle claimTitle
    by_cases h4 : win_condition = 4 <;> by_cases hf : raceformat_name.isEmpty <;>
      simp [h4, hc, hf, String.append_assoc]
  · intro h4 hc
    unfold plotTitle
    simp [h4, hc]

/-- Witness: the three title cases realised at concrete inputs. -/
theorem claim_C9_witness :
    plotTitle 0 "Ev" "F" "C" 3 = claimTitle 0 "Ev" "F" "C" 3 ∧
    plotTitle 4 "Ev" "F" "C" 3 = claimTitle 4 "Ev" "F" "C" 3 ∧
    plotTitle 4 "Ev" "F" "" 5 = toString (5 : Int) ++ " Consecutive Laps - Lap Times" :=
  ⟨(claim_C9_title 0 "Ev" "F" "C" 3).1 (by decide),
   (claim_C9_title 4 "Ev" "F" "C" 3).2.1 (by decide),
   (claim_C9_title 4 "Ev" "F" "" 5).2.2 rfl (by decide)⟩

/-! ## C10 — failed heat resolution is cached -/

/-- C10: when the race lookup raises during `_get_race_heat_id`, the
safe default heat id 0 is itself inserted into the cache for that race
id, and a subsequent lookup of the same id — even against a data source
that now resolves the race — returns the cached 0 without consulting
the data source, until the entry is evicted.  The cache outlives
individual `generate_plot` calls (it is instance state threaded through
every call), which the second lookup against a different `DB` value
models. -/
theorem claim_C10_failure_cached (db dbLater : DB) (c : Cache) (race_id : Nat)
    (hraise : db.race_by_id race_id = .error ())
    (hmiss : cacheGet c race_id = Option.none)
    (hlen : c.length < maxCacheSize) :
    get_race_heat_id db c race_id = (0, c ++ [(race_id, 0)]) ∧
    (get_race_heat_id dbLater (c ++ [(race_id, 0)]) race_id).1 = 0 := by
  have hresolve : resolveHeatId db race_id = 0 := by
    unfold resolveHeatId
    rw [hraise]
  constructor
  · unfold get_race_heat_id
    rw [hmiss, hresolve, if_neg (Nat.not_le.mpr hlen)]
  · have hfind : cacheGet (c ++ [(race_id, 0)]) race_id = Option.some 0 := by
      unfold cacheGet at hmiss ⊢
      rw [List.find?_append]
      have : c.find? (fun e => e.1 = race_id) = Option.none := by
        cases hfc : c.find? (fun e => e.1 = race_id) with
        | none => rfl
        | some e => rw [hfc] at hmiss; simp at hmiss
      rw [this]
      simp
    unfold get_race_heat_id
    rw [hfind]

/-- A data source whose race lookup raises for race 50. -/
def dbRaceRaises : DB :=
  { dbEmpty with race_by_id := fun _ => .error () }

/-- A race owned by heat 7, with no round metadata. -/
def raceHeat7 : Race where
  heat_id := 7
  round_id := Option.none
  round := Option.none
  round_number := Option.none

/-- A data source where race 50 now resolves to heat 7. -/
def dbRaceFixed : DB :=
  { dbEmpty with
    race_by_id := fun rid =>
      if rid = 50 then .ok (Option.some raceHeat7) else .ok Option.none }

/-- Witness: the failure default 0 is cached for race 50 and returned
again even though the data source would now resolve heat 7. -/
theorem claim_C10_witness :
    get_race_heat_id dbRaceRaises [] 50 = (0, [(50, 0)]) ∧
    (get_race_heat_id dbRaceFixed [(50, 0)] 50).1 = 0 ∧
    resolveHeatId dbRaceFixed 50 = 7 := by
  have h := claim_C10_failure_cached dbRaceRaises dbRaceFixed [] 50 rfl rfl (by decide)
  refine ⟨h.1, ?_, by decide⟩
  have h2 := h.2
  simpa using h2

/-! ## C4 — the orchestrator's error policy -/

/-- The consecutive-data stage as invoked by `generate_plot` (win
condition 4 only). -/
def pipelineConsec (db : DB) (rc : RaceClass) : Option (List ConsecRow) × Int :=
  if get_win_condition db rc = 4 then consecStage db (formatBase (getRaceformat db rc))
  else (Option.none, formatBase (getRaceformat db rc))

/-- The lap table as computed inside `generate_plot` for a given class
and incoming cache. -/
def pipelineLapRows (db : DB) (rc : RaceClass) (c : Cache) : List LapRow × Cache :=
  extract_lap_data db rc (get_win_condition db rc) (extract_pilot_data db rc c).1
    (pipelineConsec db rc).1 (extract_pilot_data db rc c).2

/-- C4: `generate_plot` never raises — it is total into the outcome
type — and classifies failures as the claim states: a missing or
unidentifiable race class yields the invalid-class page; an empty race
list, an empty resolved pilot roster, or an empty lap table yield the
respective no-data pages; a raising renderer (the only modelled
collaborator whose failure is not absorbed earlier) is caught at the
outer boundary and yields the generic error page; otherwise the
rendered page is returned. -/
theorem claim_C4_generate_plot_outcomes (db : DB) (rcOpt : Option RaceClass) (c : Cache) :
    (rcOpt = Option.none →
      (generate_plot db rcOpt c).1 = GenerateResult.invalidClass "Race class is None") ∧
    (∀ rc, rcOpt = Option.some rc → rc.id = Option.none →
      (generate_plot db rcOpt c).1 =
        GenerateResult.invalidClass "Race class missing id attribute") ∧
    (∀ rc, rcOpt = Option.some rc → (rc.id).isSome → db.races = [] →
      (generate_plot db rcOpt c).1 = GenerateResult.noRaces ((rc.name).getD "Unknown")) ∧
    (∀ rc, rcOpt = Option.some rc → (rc.id).isSome → db.races ≠ [] →
      (extract_pilot_data db rc c).1 = [] →
      (generate_plot db rcOpt c).1 = GenerateResult.noPilots ((rc.name).getD "Unknown")) ∧
    (∀ rc, rcOpt = Option.some rc → (rc.id).isSome → db.races ≠ [] →
      (extract_pilot_data db rc c).1 ≠ [] → (pipelineLapRows db rc c).1 = [] →
      (generate_plot db rcOpt c).1 = GenerateResult.noLaps ((rc.name).getD "Unknown")) ∧
    (∀ rc e, rcOpt = Option.some rc → (rc.id).isSome → db.races ≠ [] →
      (extract_pilot_data db rc c).1 ≠ [] → (pipelineLapRows db rc c).1 ≠ [] →
      db.render_error = Option.some e →
      (generate_plot db rcOpt c).1 = GenerateResult.genericError e) ∧
    (∀ rc, rcOpt = Option.some rc → (rc.id).isSome → db.races ≠ [] →
      (extract_pilot_data db rc c).1 ≠ [] → (pipelineLapRows db rc c).1 ≠ [] →
      db.render_error = Option.none →
      ∃ html, (generate_plot db rcOpt c).1 = GenerateResult.page html) := by
  refine ⟨?_, ?_, ?_, ?_, ?_, ?_, ?_⟩
  · intro h
    subst h
    rfl
  · intro rc hrc hid
    subst hrc
    simp [generate_plot, hid]
  · intro rc hrc hid hraces
    subst hrc
    obtain ⟨cid, hcid⟩ := Option.isSome_iff_exists.mp hid
    simp [generate_plot, hcid, hraces]
  · intro rc hrc hid hraces hpilots
    subst hrc
    obtain ⟨cid, hcid⟩ := Option.isSome_iff_exists.mp hid
    simp [generate_plot, hcid, List.isEmpty_iff, hraces, hpilots]
  · intro rc hrc hid hraces hpilots hlaps
    subst hrc
    obtain ⟨cid, hcid⟩ := Option.isSome_iff_exists.mp hid
    have hlaps' := hlaps
    unfold pipelineLapRows pipelineConsec at hlaps'
    simp [generate_plot, hcid, List.isEmpty_iff, hraces, hpilots, hlaps']
  · intro rc e hrc hid hraces hpilots hlaps hrender
    subst hrc
    obtain ⟨cid, hcid⟩ := Option.isSome_iff_exists.mp hid
    have hlaps' := hlaps
    unfold pipelineLapRows pipelineConsec at hlaps'
    simp [generate_plot, hcid, List.isEmpty_iff, hraces, hpilots, hlaps', renderPlot, hrender]
  · intro rc hrc hid hraces hpilots hlaps hrender
    subst hrc
    obtain ⟨cid, hcid⟩ := Option.isSome_iff_exists.mp hid
    have hlaps' := hlaps
    unfold pipelineLapRows pipelineConsec at hlaps'
    simp [generate_plot, hcid, List.isEmpty_iff, hraces, hpilots, hlaps', renderPlot, hrender]

/-- A race class without a usable id. -/
def rcNoId : RaceClass where
  id := Option.none
  name := Option.none
  format_id := Option.none
  raceformat := Option.none
  format := Option.none

/-- The race class "C" with id 1 used by the pipeline examples. -/
def rcClass1 : RaceClass where
  id := Option.some 1
  name := Option.some "C"
  format_id := Option.none
  raceformat := Option.none
  format := Option.none

/-- Heat 10 owned by class 1. -/
def heatH10 : Heat where
  id := 10
  class_id := Option.some 1
  raceclass_id := Option.none
  race_class_id := Option.none

/-- Race 50: heat 10, round 2. -/
def raceR50 : Race where
  heat_id := 10
  round_id := Option.none
  round := Option.some 2
  round_number := Option.none

/-- Pilot 7. -/
def pilotAlice : Pilot where
  id := 7
  callsign := "Alice"
  color := "red"

/-- Run 100 of pilot 7. -/
def runR100 : PilotRun where
  id := 100
  pilot_id := 7
  round_id := Option.none
  round := Option.none
  round_number := Option.none

/-- The laps of run 100: a holeshot of 12s then laps of 28, 27 and 26
seconds — the shape of the specification's worked example (integral
times so that every witness evaluates by kernel reduction). -/
def lapsRun100 : List Lap :=
  [{ race_id := 50, lap_time_formatted := "12", deleted := 0 },
   { race_id := 50, lap_time_formatted := "28", deleted := 0 },
   { race_id := 50, lap_time_formatted := "27", deleted := 0 },
   { race_id := 50, lap_time_formatted := "26", deleted := 0 }]

/-- A complete one-pilot, one-run data source. -/
def dbLaps : DB where
  pilots := [pilotAlice]
  heats := [heatH10]
  races := [raceR50]
  pilotruns := [runR100]
  laps_by_pilotrun := fun i => if i = 100 then lapsRun100 else []
  race_by_id := fun rid => if rid = 50 then .ok (Option.some raceR50) else .ok Option.none
  round_by_id := Option.none
  pilotrun_by_id := Option.none
  raceformat_by_id := fun _ => Option.none
  raceclass_results := Option.none
  event_name := "Ev"
  render_error := Option.none

/-- `dbLaps` but with a raising renderer. -/
def dbLapsRenderFail : DB :=
  { dbLaps with render_error := Option.some "boom" }

/-- Races exist but the roster is empty (no heats, no pilots). -/
def dbNoPilots : DB :=
  { dbEmpty with races := [raceR50] }

/-- Races and a pilot exist but no runs, so the lap table is empty. -/
def dbNoLaps : DB :=
  { dbEmpty with races := [raceR50], pilots := [pilotAlice] }

/-- Witness: all seven outcome branches of the error policy realised at
concrete inputs. -/
theorem claim_C4_witness :
    (generate_plot dbEmpty Option.none []).1 =
      GenerateResult.invalidClass "Race class is None" ∧
    (generate_plot dbEmpty (Option.some rcNoId) []).1 =
      GenerateResult.invalidClass "Race class missing id attribute" ∧
    (generate_plot dbEmpty (Option.some rcClass1) []).1 = GenerateResult.noRaces "C" ∧
    (generate_plot dbNoPilots (Option.some rcClass1) []).1 = GenerateResult.noPilots "C" ∧
    (generate_plot dbNoLaps (Option.some rcClass1) []).1 = GenerateResult.noLaps "C" ∧
    (generate_plot dbLapsRenderFail (Option.some rcClass1) []).1 =
      GenerateResult.genericError "boom" ∧
    (∃ html, (generate_plot dbLaps (Option.some rcClass1) []).1 = GenerateResult.page html) :=
  ⟨(claim_C4_generate_plot_outcomes dbEmpty Option.none []).1 rfl,
   (claim_C4_generate_plot_outcomes dbEmpty (Option.some rcNoId) []).2.1 rcNoId rfl rfl,
   (claim_C4_generate_plot_outcomes dbEmpty (Option.some rcClass1) []).2.2.1 rcClass1 rfl
     (by decide) rfl,
   (claim_C4_generate_plot_outcomes dbNoPilots (Option.some rcClass1) []).2.2.2.1 rcClass1 rfl
     (by decide) (by decide) (by decide),
   (claim_C4_generate_plot_outcomes dbNoLaps (Option.some rcClass1) []).2.2.2.2.1 rcClass1 rfl
     (by decide) (by decide) (by decide) (by decide),
   (claim_C4_generate_plot_outcomes dbLapsRenderFail (Option.some rcClass1)
     []).2.2.2.2.2.1 rcClass1 "boom" rfl (by decide) (by decide) (by decide) (by decide) rfl,
   (claim_C4_generate_plot_outcomes dbLaps (Option.some rcClass1) []).2.2.2.2.2.2 rcClass1 rfl
     (by decide) (by decide) (by decide) (by decide) rfl⟩

/-! ## C5 — the bounded LRU cache -/

/-- Characterisation of a cache miss. -/
theorem cacheGet_none_iff {c : Cache} {k : Nat} :
    cacheGet c k = Option.none ↔ ∀ e ∈ c, e.1 ≠ k := by
  unfold cacheGet
  simp [List.find?_eq_none]

/-- `moveToEnd` is the identity when the key is absent. -/
theorem moveToEnd_find?_none {c : Cache} {k : Nat}
    (h : c.find? (fun e => e.1 = k) = Option.none) : moveToEnd c k = c := by
  unfold moveToEnd
  rw [h]

/-- `moveToEnd` erases the found entry and appends it at the end. -/
theorem moveToEnd_find?_some {c : Cache} {k : Nat} {e : Nat × Nat}
    (h : c.find? (fun e => e.1 = k) = Option.some e) :
    moveToEnd c k = c.eraseP (fun x => x.1 = k) ++ [e] := by
  unfold moveToEnd
  rw [h]

/-- A hit returns the cached value and only reorders the cache. -/
theorem get_race_heat_id_hit (db : DB) {c : Cache} {k v : Nat}
    (hc : cacheGet c k = Option.some v) :
    get_race_heat_id db c k = (v, moveToEnd c k) := by
  simp [get_race_heat_id, hc]

/-- A miss resolves through the data source, evicts the oldest entry
when full, and appends the new entry at the most-recently-used end. -/
theorem get_race_heat_id_miss (db : DB) {c : Cache} {k : Nat}
    (hc : cacheGet c k = Option.none) :
    get_race_heat_id db c k =
      (resolveHeatId db k,
        (if maxCacheSize ≤ c.length then c.tail else c) ++ [(k, resolveHeatId db k)]) := by
  simp [get_race_heat_id, hc]

/-- Moving an entry to the end keeps it retrievable with its value,
provided the cache keys are distinct (the `OrderedDict` invariant). -/
theorem cacheGet_moveToEnd_self {c : Cache} {k v : Nat}
    (hnd : (c.map Prod.fst).Nodup) (hget : cacheGet c k = Option.some v) :
    cacheGet (moveToEnd c k) k = Option.some v := by
  induction c with
  | nil => simp [cacheGet] at hget
  | cons x t ih =>
    rw [List.map_cons] at hnd
    have hnd1 := (List.nodup_cons.mp hnd).1
    have hnd2 := (List.nodup_cons.mp hnd).2
    by_cases hx : x.1 = k
    · have hfind : (x :: t).find? (fun e => e.1 = k) = Option.some x :=
        List.find?_cons_of_pos t (by simp [hx])
      have hv : x.2 = v := by
        unfold cacheGet at hget
        rw [hfind] at hget
        simpa using hget
      rw [moveToEnd_find?_some hfind, List.eraseP_cons_of_pos (by simp [hx])]
      unfold cacheGet
      rw [List.find?_append]
      have ht : t.find? (fun e => e.1 = k) = Option.none := by
        rw [List.find?_eq_none]
        intro a ha hak
        apply hnd1
        have hak' : a.1 = k := by simpa using hak
        rw [hx, ← hak']
        exact List.mem_map_of_mem Prod.fst ha
      rw [ht]
      simp [hx, hv]
    · have hget' : cacheGet t k = Option.some v := by
        unfold cacheGet at hget ⊢
        rwa [List.find?_cons_of_neg t (by simp [hx])] at hget
      cases hft : t.find? (fun e => e.1 = k) with
      | none =>
        exfalso
        unfold cacheGet at hget'
        rw [hft] at hget'
        simp at hget'
      | some e =>
        have hcons : (x :: t).find? (fun e => e.1 = k) = Option.some e := by
          rw [List.find?_cons_of_neg t (by simp [hx]), hft]
        rw [moveToEnd_find?_some hcons, List.eraseP_cons_of_neg (by simp [hx]),
          List.cons_append]
        unfold cacheGet
        rw [List.find?_cons_of_neg _ (by simp [hx])]
        have hih := ih hnd2 hget'
        rw [moveToEnd_find?_some hft] at hih
        unfold cacheGet at hih
        exact hih

/-- One cache step never grows the cache beyond its capacity. -/
theorem get_race_heat_id_length_le (db : DB) (c : Cache) (k : Nat)
    (h : c.length ≤ maxCacheSize) :
    ((get_race_heat_id db c k).2).length ≤ maxCacheSize := by
  cases hc : cacheGet c k with
  | some v =>
    rw [get_race_heat_id_hit db hc]
    cases hf : c.find? (fun e => e.1 = k) with
    | none =>
      rw [moveToEnd_find?_none hf]
      exact h
    | some e =>
      rw [moveToEnd_find?_some hf]
      have hmem := List.mem_of_find?_eq_some hf
      have hpred := List.find?_some hf
      have hpos : c ≠ [] := List.ne_nil_of_mem hmem
      rw [List.length_append, List.length_eraseP_of_mem hmem hpred]
      have hcpos : 0 < c.length := List.length_pos.mpr hpos
      simp only [List.length_cons, List.length_nil]
      simp only [maxCacheSize] at h ⊢
      omega
  | none =>
    rw [get_race_heat_id_miss db hc]
    by_cases hlen : maxCacheSize ≤ c.length
    · rw [if_pos hlen, List.length_append, List.length_tail]
      simp only [List.length_cons, List.length_nil]
      simp only [maxCacheSize] at h hlen ⊢
      omega
    · rw [if_neg hlen, List.length_append]
      simp only [List.length_cons, List.length_nil]
      simp only [maxCacheSize] at h hlen ⊢
      omega

/-- Filling an under-capacity cache with fresh distinct ids appends each
id with its resolved heat, in order. -/
theorem fillCache_fresh (db : DB) (ids : List Nat) : ∀ (c : Cache), ids.Nodup →
    (∀ i ∈ ids, cacheGet c i = Option.none) → c.length + ids.length ≤ maxCacheSize →
    fillCache db ids c = c ++ ids.map (fun i => (i, resolveHeatId db i)) := by
  induction ids with
  | nil => intro c _ _ _; simp [fillCache]
  | cons i is ih =>
    intro c hnd hfresh hlen
    have hmiss : cacheGet c i = Option.none := hfresh i (List.mem_cons_self i is)
    have hnotfull : ¬ maxCacheSize ≤ c.length := by
      simp only [List.length_cons] at hlen
      omega
    have hstep : (get_race_heat_id db c i).2 = c ++ [(i, resolveHeatId db i)] := by
      rw [get_race_heat_id_miss db hmiss, if_neg hnotfull]
    have hfresh' : ∀ j ∈ is, cacheGet (c ++ [(i, resolveHeatId db i)]) j = Option.none := by
      intro j hj
      rw [cacheGet_none_iff]
      intro e he
      rcases List.mem_append.mp he with hec | hei
      · exact (cacheGet_none_iff.mp (hfresh j (List.mem_cons_of_mem i hj))) e hec
      · have hei' : e = (i, resolveHeatId db i) := by simpa using hei
        rw [hei']
        intro hij
        have hij' : i = j := by simpa using hij
        exact (List.nodup_cons.mp hnd).1 (hij' ▸ hj)
    have hlen' : (c ++ [(i, resolveHeatId db i)]).length + is.length ≤ maxCacheSize := by
      simp only [List.length_append, List.length_cons, List.length_nil] at hlen ⊢
      omega
    have hunf : fillCache db (i :: is) c = fillCache db is ((get_race_heat_id db c i).2) := rfl
    rw [hunf, hstep, ih _ (List.nodup_cons.mp hnd).2 hfresh' hlen']
    simp

/-- `fillCache` distributes over list append. -/
theorem fillCache_append (db : DB) (l1 l2 : List Nat) (c : Cache) :
    fillCache db (l1 ++ l2) c = fillCache db l2 (fillCache db l1 c) := by
  unfold fillCache
  exact List.foldl_append _ _ _ _

/-- `fillCache` on a single id performs one cache step. -/
theorem fillCache_singleton (db : DB) (m : Nat) (c : Cache) :
    fillCache db [m] c = (get_race_heat_id db c m).2 := rfl

/-- C5: the heat-resolution cache (a) never exceeds its fixed capacity
of `maxCacheSize = 1000` entries, (b) returns the same heat id for a
repeated lookup of the same race id, and (c) after resolving
capacity+1 distinct race ids from an empty cache, the
least-recently-accessed (first) id has been evicted, so its next lookup
re-resolves through the (possibly changed) data source instead of
returning a cached value. -/
theorem claim_C5_lru_cache (db dbLater : DB) :
    (∀ c race_id, c.length ≤ maxCacheSize →
      ((get_race_heat_id db c race_id).2).length ≤ maxCacheSize) ∧
    (∀ c race_id, (c.map Prod.fst).Nodup →
      (get_race_heat_id db ((get_race_heat_id db c race_id).2) race_id).1 =
        (get_race_heat_id db c race_id).1) ∧
    (cacheGet (fillCache db (List.range (maxCacheSize + 1)) []) 0 = Option.none ∧
      (get_race_heat_id dbLater (fillCache db (List.range (maxCacheSize + 1)) []) 0).1 =
        resolveHeatId dbLater 0) := by
  have hfill :
      fillCache db (List.range maxCacheSize) [] =
        (List.range maxCacheSize).map (fun i => (i, resolveHeatId db i)) := by
    have := fillCache_fresh db (List.range maxCacheSize) [] (List.nodup_range maxCacheSize)
      (fun i _ => rfl) (by simp)
    simpa using this
  have hmissTop :
      cacheGet ((List.range maxCacheSize).map (fun i => (i, resolveHeatId db i)))
        maxCacheSize = Option.none := by
    rw [cacheGet_none_iff]
    intro e he
    rcases List.mem_map.mp he with ⟨i, hi, rfl⟩
    exact Nat.ne_of_lt (List.mem_range.mp hi)
  have hClen :
      maxCacheSize ≤
        ((List.range maxCacheSize).map (fun i => (i, resolveHeatId db i))).length := by
    simp
  have hfinal :
      fillCache db (List.range (maxCacheSize + 1)) [] =
        (((List.range maxCacheSize).map (fun i => (i, resolveHeatId db i))).tail) ++
          [(maxCacheSize, resolveHeatId db maxCacheSize)] := by
    rw [List.range_succ, fillCache_append, fillCache_singleton, hfill,
      get_race_heat_id_miss db hmissTop, if_pos hClen]
  have h999 : maxCacheSize = 999 + 1 := rfl
  have htail :
      (((List.range maxCacheSize).map (fun i => (i, resolveHeatId db i))).tail) =
        ((List.range 999).map Nat.succ).map (fun i => (i, resolveHeatId db i)) := by
    rw [h999, List.range_succ_eq_map]
    simp
  have hzero : cacheGet (fillCache db (List.range (maxCacheSize + 1)) []) 0 = Option.none := by
    rw [hfinal, cacheGet_none_iff]
    intro e he
    rcases List.mem_append.mp he with het | hel
    · rw [htail] at het
      rcases List.mem_map.mp het with ⟨j, hj, rfl⟩
      rcases List.mem_map.mp hj with ⟨j0, _, rfl⟩
      simp
    · have he' : e = (maxCacheSize, resolveHeatId db maxCacheSize) := by simpa using hel
      rw [he']
      intro hcontr
      simp [maxCacheSize] at hcontr
  refine ⟨fun c race_id h => get_race_heat_id_length_le db c race_id h, ?_, hzero, ?_⟩
  · intro c race_id hnd
    cases hc : cacheGet c race_id with
    | some v =>
      rw [get_race_heat_id_hit db hc]
      rw [get_race_heat_id_hit db (cacheGet_moveToEnd_self hnd hc)]
    | none =>
      rw [get_race_heat_id_miss db hc]
      have hagain :
          cacheGet ((if maxCacheSize ≤ c.length then c.tail else c) ++
            [(race_id, resolveHeatId db race_id)]) race_id =
            Option.some (resolveHeatId db race_id) := by
        unfold cacheGet
        rw [List.find?_append]
        have hleft : ((if maxCacheSize ≤ c.length then c.tail else c).find?
            (fun e => e.1 = race_id)) = Option.none := by
          rw [List.find?_eq_none]
          intro e he hek
          have hec : e ∈ c := by
            by_cases hl : maxCacheSize ≤ c.length
            · rw [if_pos hl] at he
              exact (List.tail_sublist c).mem he
            · rw [if_neg hl] at he
              exact he
          have hne := cacheGet_none_iff.mp hc e hec
          have : e.1 = race_id := by simpa using hek
          exact hne this
        rw [hleft]
        simp
      rw [get_race_heat_id_hit db hagain]
  · rw [get_race_heat_id_miss dbLater hzero]

/-- Witness: the capacity bound and the repeated-lookup agreement
realised at a concrete input. -/
theorem claim_C5_witness :
    ((get_race_heat_id dbRaceFixed [] 50).2).length ≤ maxCacheSize ∧
    (get_race_heat_id dbRaceFixed ((get_race_heat_id dbRaceFixed [] 50).2) 50).1 =
      (get_race_heat_id dbRaceFixed [] 50).1 :=
  ⟨(claim_C5_lru_cache dbRaceFixed dbRaceFixed).1 [] 50 (by decide),
   (claim_C5_lru_cache dbRaceFixed dbRaceFixed).2.1 [] 50 (by decide)⟩

/-! ## C7 — pilot fallback and distinct ids -/

/-- `insertSet` preserves distinctness. -/
theorem insertSet_nodup {s : List Nat} {x : Nat} (h : s.Nodup) : (insertSet s x).Nodup := by
  unfold insertSet
  by_cases hx : x ∈ s
  · simpa [hx]
  · rw [if_neg hx]
    rw [List.nodup_append]
    refine ⟨h, List.nodup_singleton x, ?_⟩
    intro a ha hax
    rw [List.mem_singleton] at hax
    subst hax
    exact hx ha

/-- Each pilot-set step preserves distinctness. -/
theorem pilotSetStep_nodup (run_dict : List (Nat × PilotRun)) (class_heat_ids : List Nat)
    {s : List Nat} (e : Nat × Nat) (h : s.Nodup) :
    (pilotSetStep run_dict class_heat_ids s e).Nodup := by
  unfold pilotSetStep
  split
  all_goals try exact h
  split
  all_goals try exact h
  split
  · exact insertSet_nodup h
  · exact h

/-- The accumulated pilot set is distinct. -/
theorem pilotSetOf_nodup (heat_map : List (Nat × Nat)) (run_dict : List (Nat × PilotRun))
    (class_heat_ids : List Nat) : (pilotSetOf heat_map run_dict class_heat_ids).Nodup := by
  unfold pilotSetOf
  suffices hgen : ∀ (l : List (Nat × Nat)) (s : List Nat), s.Nodup →
      (l.foldl (pilotSetStep run_dict class_heat_ids) s).Nodup by
    exact hgen heat_map [] List.nodup_nil
  intro l
  induction l with
  | nil => intro s hs; exact hs
  | cons a l ih =>
    intro s hs
    exact ih _ (pilotSetStep_nodup run_dict class_heat_ids a hs)

/-- A hit in the pilot dictionary returns the pilot with that id. -/
theorem dictGetLast_pilotDict {ps : List Pilot} {pid : Nat} {p : Pilot}
    (h : dictGetLast (pilotDict ps) pid = Option.some p) : p.id = pid := by
  unfold dictGetLast at h
  cases hf : ((pilotDict ps).reverse).find? (fun e => e.1 = pid) with
  | none =>
    rw [hf] at h
    simp at h
  | some e =>
    rw [hf] at h
    have hpred := List.find?_some hf
    have hmem : e ∈ pilotDict ps := List.mem_reverse.mp (List.mem_of_find?_eq_some hf)
    rcases List.mem_map.mp hmem with ⟨q, _, rfl⟩
    simp at h hpred
    rw [← h]
    exact hpred

/-- The ids of the filtered pilot rows are exactly the pilot-set ids
that hit the pilot dictionary. -/
theorem map_pilotId_filterMap (ps : List Pilot) (l : List Nat) :
    ((l.filterMap (fun pid => (dictGetLast (pilotDict ps) pid).map pilotRowOf)).map
      (fun r => r.pilotId)) =
    l.filter (fun pid => (dictGetLast (pilotDict ps) pid).isSome) := by
  induction l with
  | nil => rfl
  | cons a l ih =>
    cases hd : dictGetLast (pilotDict ps) a with
    | none => simp [List.filterMap_cons, hd, List.filter_cons, ih]
    | some p =>
      have hid : p.id = a := dictGetLast_pilotDict hd
      simp [List.filterMap_cons, hd, List.filter_cons, ih, pilotRowOf, hid]

/-- C7: when no heats resolve to the class, `_extract_pilot_data`
returns the full pilot roster (the explicit fallback); and — given the
data model's unique pilot ids — the returned pilot table never contains
a duplicate pilot id (in the filtered case even without that
assumption, since the pilot set is distinct). -/
theorem claim_C7_pilot_fallback_nodup (db : DB) (rc : RaceClass) (c : Cache) :
    (get_class_heat_ids db rc = [] →
      (extract_pilot_data db rc c).1 = db.pilots.map pilotRowOf) ∧
    ((db.pilots.map (fun p => p.id)).Nodup →
      (((extract_pilot_data db rc c).1).map (fun r => r.pilotId)).Nodup) := by
  constructor
  · intro h
    simp [extract_pilot_data, h]
  · intro hnd
    by_cases hlen : 0 < (get_class_heat_ids db rc).length
    · simp only [extract_pilot_data, if_pos hlen]
      rw [map_pilotId_filterMap]
      exact List.Nodup.filter _
        (pilotSetOf_nodup (build_pilotrun_heat_map db (get_class_heat_ids db rc) c).1
          (build_pilotrun_heat_map db (get_class_heat_ids db rc) c).2.1
          (get_class_heat_ids db rc))
    · simp only [extract_pilot_data, if_neg hlen]
      rw [List.map_map]
      have : ((fun r : PilotRow => r.pilotId) ∘ pilotRowOf) = fun p : Pilot => p.id := rfl
      rw [this]
      exact hnd

/-- A roster with two pilots sharing no id. -/
def dbTwoPilots : DB :=
  { dbEmpty with pilots := [pilotAlice, { id := 8, callsign := "Bob", color := "blue" }] }

/-- Witness: the fallback and the distinct-id property at concrete
inputs — no heats resolve, so the full two-pilot roster is returned,
with distinct ids. -/
theorem claim_C7_witness :
    (extract_pilot_data dbTwoPilots rcClass1 []).1 = dbTwoPilots.pilots.map pilotRowOf ∧
    (((extract_pilot_data dbTwoPilots rcClass1 []).1).map (fun r => r.pilotId)).Nodup :=
  ⟨(claim_C7_pilot_fallback_nodup dbTwoPilots rcClass1 []).1 rfl,
   (claim_C7_pilot_fallback_nodup dbTwoPilots rcClass1 []).2 (by decide)⟩

/-! ## C1 / C2 — lap-table flag invariants -/

/-- Rows produced for one run: the pilot id, round, zero fastest-lap
flag, and the `Best Q` value computed from the row's own round and lap
index. -/
theorem mem_runRows {pid : Nat} {name : String} {win_condition : Int}
    {window : Option ConsecRow} {heat_id : Nat} {actual_round : Int} {laps : List Lap}
    {row : LapRow} (h : row ∈ runRows pid name win_condition window heat_id actual_round laps) :
    row.pilotId = pid ∧ row.fastestLap = 0 ∧
      row.bestQ = bestQFlag win_condition window row.round row.lap := by
  unfold runRows at h
  rcases List.mem_filterMap.mp h with ⟨e, _, hf⟩
  by_cases hd : e.2.deleted ≠ 0
  · rw [if_pos hd] at hf
    simp at hf
  · rw [if_neg hd] at hf
    have heq := Option.some.inj hf
    rw [← heq]
    exact ⟨rfl, rfl, rfl⟩

/-- The same invariant for the rows of `processRun`. -/
theorem mem_processRun {db : DB} {c : Cache} {pid : Nat} {name : String}
    {win_condition : Int} {window : Option ConsecRow} {round_idx run_id : Nat} {row : LapRow}
    (h : row ∈ (processRun db c pid name win_condition window round_idx run_id).1) :
    row.pilotId = pid ∧ row.fastestLap = 0 ∧
      row.bestQ = bestQFlag win_condition window row.round row.lap := by
  unfold processRun at h
  cases hl : db.laps_by_pilotrun run_id with
  | nil =>
    rw [hl] at h
    simp at h
  | cons lap0 rest =>
    rw [hl] at h
    exact mem_runRows h

/-- The same invariant for a whole run group. -/
theorem mem_pilotLapRows {db : DB} {pid : Nat} {name : String} {win_condition : Int}
    {window : Option ConsecRow} {run_ids : List Nat} {c : Cache} {row : LapRow}
    (h : row ∈ (pilotLapRows db pid name win_condition window run_ids c).1) :
    row.pilotId = pid ∧ row.fastestLap = 0 ∧
      row.bestQ = bestQFlag win_condition window row.round row.lap := by
  unfold pilotLapRows at h
  suffices hgen : ∀ (l : List (Nat × Nat)) (acc : List LapRow × Cache),
      (∀ r ∈ acc.1, r.pilotId = pid ∧ r.fastestLap = 0 ∧
        r.bestQ = bestQFlag win_condition window r.round r.lap) →
      ∀ r ∈ (l.foldl (pilotRunsStep db pid name win_condition window) acc).1,
        r.pilotId = pid ∧ r.fastestLap = 0 ∧
          r.bestQ = bestQFlag win_condition window r.round r.lap by
    exact hgen run_ids.enum ([], c) (by intro r hr; simp at hr) row h
  intro l
  induction l with
  | nil => intro acc hacc r hr; exact hacc r hr
  | cons a l ih =>
    intro acc hacc r hr
    refine ih (pilotRunsStep db pid name win_condition window acc a) ?_ r hr
    intro r' hr'
    unfold pilotRunsStep at hr'
    rcases List.mem_append.mp hr' with hr1 | hr2
    · exact hacc r' hr1
    · exact mem_processRun hr2

/-- The invariant carried through the group fold of
`_extract_lap_data`: every accumulated row has fastest-lap flag 0 and a
`Best Q` flag computed from its own pilot's window data. -/
theorem mem_lapGroups_fold (db : DB) (win_condition : Int) (pilot_df : List PilotRow)
    (consecutive_df : Option (List ConsecRow)) :
    ∀ (l : List (Nat × List Nat)) (acc : List LapRow × Cache),
      (∀ r ∈ acc.1, r.fastestLap = 0 ∧
        r.bestQ = bestQFlag win_condition
          (windowFor win_condition consecutive_df r.pilotId) r.round r.lap) →
      ∀ r ∈ (l.foldl (lapGroupsStep db win_condition pilot_df consecutive_df) acc).1,
        r.fastestLap = 0 ∧
          r.bestQ = bestQFlag win_condition
            (windowFor win_condition consecutive_df r.pilotId) r.round r.lap := by
  intro l
  induction l with
  | nil => intro acc hacc r hr; exact hacc r hr
  | cons g l ih =>
    intro acc hacc r hr
    refine ih (lapGroupsStep db win_condition pilot_df consecutive_df acc g) ?_ r hr
    intro r' hr'
    unfold lapGroupsStep at hr'
    cases hn : dictGetLast (pilot_df.map (fun p => (p.pilotId, p.pilotName))) g.1 with
    | none =>
      rw [hn] at hr'
      exact hacc r' hr'
    | some name =>
      rw [hn] at hr'
      rcases List.mem_append.mp hr' with hr1 | hr2
      · exact hacc r' hr1
      · obtain ⟨hpid, hfl, hq⟩ := mem_pilotLapRows hr2
        exact ⟨hfl, by rw [hq, hpid]⟩

/-- `fastestMark` only touches the fastest-lap flag. -/
theorem fastestMark_fields (rows : List LapRow) (r : LapRow) :
    (fastestMark rows r).pilotId = r.pilotId ∧ (fastestMark rows r).lap = r.lap ∧
      (fastestMark rows r).lapTime = r.lapTime ∧ (fastestMark rows r).round = r.round ∧
      (fastestMark rows r).bestQ = r.bestQ := by
  unfold fastestMark
  split
  · exact ⟨rfl, rfl, rfl, rfl, rfl⟩
  · exact ⟨rfl, rfl, rfl, rfl, rfl⟩

/-- The per-pilot minimum is unchanged by the fastest-lap pass. -/
theorem pilotMinRegular_map_fastestMark (rows : List LapRow) (pid : Nat) :
    pilotMinRegular (rows.map (fastestMark rows)) pid = pilotMinRegular rows pid := by
  unfold pilotMinRegular
  rw [List.filter_map, List.map_map]
  have hfilter :
      (fun r : LapRow => decide (r.pilotId = pid ∧ 0 < r.lap)) ∘ fastestMark rows =
        fun r : LapRow => decide (r.pilotId = pid ∧ 0 < r.lap) := by
    funext r
    obtain ⟨h1, h2, _, _, _⟩ := fastestMark_fields rows r
    simp [Function.comp, h1, h2]
  have hmap :
      (fun r : LapRow => r.lapTime) ∘ fastestMark rows = fun r : LapRow => r.lapTime := by
    funext r
    obtain ⟨_, _, h3, _, _⟩ := fastestMark_fields rows r
    simp [Function.comp, h3]
  rw [hfilter, hmap]

/-- Every row of the finished lap table carries the fold invariant:
its `Best Q` flag equals the per-lap computation from its own fields,
and its fastest-lap flag is 0 unless set by the win-condition-3 pass. -/
theorem mem_extract_lap_data_bestQ {db : DB} {rc : RaceClass} {win_condition : Int}
    {pilot_df : List PilotRow} {consecutive_df : Option (List ConsecRow)} {c : Cache}
    {row : LapRow}
    (h : row ∈ (extract_lap_data db rc win_condition pilot_df consecutive_df c).1) :
    row.bestQ = bestQFlag win_condition
      (windowFor win_condition consecutive_df row.pilotId) row.round row.lap := by
  unfold extract_lap_data at h
  by_cases hp : pilot_df.isEmpty
  · rw [if_pos hp] at h
    simp at h
  · rw [if_neg hp] at h
    simp only at h
    set pre :=
      ((groupRuns (build_pilotrun_heat_map db (get_class_heat_ids db rc) c).1
        (build_pilotrun_heat_map db (get_class_heat_ids db rc) c).2.1
        (get_class_heat_ids db rc)).foldl
          (lapGroupsStep db win_condition pilot_df consecutive_df)
          ([], (build_pilotrun_heat_map db (get_class_heat_ids db rc) c).2.2)).1 with hpre
    have hinv := mem_lapGroups_fold db win_condition pilot_df consecutive_df
      (groupRuns (build_pilotrun_heat_map db (get_class_heat_ids db rc) c).1
        (build_pilotrun_heat_map db (get_class_heat_ids db rc) c).2.1
        (get_class_heat_ids db rc))
      ([], (build_pilotrun_heat_map db (get_class_heat_ids db rc) c).2.2)
      (by intro r hr; simp at hr)
    unfold markFastest at h
    by_cases hcond : win_condition = 3 ∧ ¬ pre.isEmpty
    · rw [if_pos hcond] at h
      rcases List.mem_map.mp h with ⟨r, hrmem, hrr⟩
      obtain ⟨_, hq⟩ := hinv r hrmem
      obtain ⟨h1, h2, _, h4, h5⟩ := fastestMark_fields pre r
      rw [← hrr, h5, h1, h2, h4, hq]
    · rw [if_neg hcond] at h
      exact (hinv row h).2

/-- The flag characterisation of the fastest-lap pass, relative to the
finished table (whose per-pilot minima agree with the pre-pass table). -/
theorem markFastest_flag_iff {win_condition : Int} {pre : List LapRow} {row : LapRow}
    (hpre0 : ∀ r ∈ pre, r.fastestLap = 0)
    (hrow : row ∈ markFastest win_condition pre) :
    (row.fastestLap = 1 ↔
      win_condition = 3 ∧ 0 < row.lap ∧
        pilotMinRegular (markFastest win_condition pre) row.pilotId =
          Option.some row.lapTime) := by
  unfold markFastest at hrow ⊢
  by_cases hcond : win_condition = 3 ∧ ¬ pre.isEmpty
  · rw [if_pos hcond] at hrow ⊢
    rcases List.mem_map.mp hrow with ⟨r, hr, hrr⟩
    obtain ⟨h1, h2, h3, _, _⟩ := fastestMark_fields pre r
    rw [pilotMinRegular_map_fastestMark]
    subst hrr
    constructor
    · intro hflag
      by_cases hc : 0 < r.lap ∧ pilotMinRegular pre r.pilotId = Option.some r.lapTime
      · refine ⟨hcond.1, ?_, ?_⟩
        · rw [h2]
          exact hc.1
        · rw [h1, h3]
          exact hc.2
      · exfalso
        unfold fastestMark at hflag
        rw [if_neg hc] at hflag
        rw [hpre0 r hr] at hflag
        exact absurd hflag (by decide)
    · intro hcond2
      obtain ⟨_, hlap, hmin⟩ := hcond2
      rw [h2] at hlap
      rw [h1, h3] at hmin
      unfold fastestMark
      rw [if_pos ⟨hlap, hmin⟩]
  · rw [if_neg hcond] at hrow ⊢
    have h0 := hpre0 row hrow
    constructor
    · intro h1
      rw [h0] at h1
      exact absurd h1 (by decide)
    · intro hcond2
      obtain ⟨h3, _, _⟩ := hcond2
      exfalso
      apply hcond
      refine ⟨h3, ?_⟩
      intro hemp
      rw [List.isEmpty_iff] at hemp
      rw [hemp] at hrow
      simp at hrow

/-- C2: in the lap table of `_extract_lap_data`, a row's fastest-lap
flag is 1 exactly when the win condition is 3, the row is not the
holeshot, and its time equals its pilot's minimum non-holeshot lap
time over the whole table — so all ties are flagged and no holeshot is
ever flagged. -/
theorem claim_C2_fastest_lap (db : DB) (rc : RaceClass) (win_condition : Int)
    (pilot_df : List PilotRow) (consecutive_df : Option (List ConsecRow)) (c : Cache)
    (row : LapRow)
    (hrow : row ∈ (extract_lap_data db rc win_condition pilot_df consecutive_df c).1) :
    (row.fastestLap = 1 ↔
      win_condition = 3 ∧ 0 < row.lap ∧
        pilotMinRegular (extract_lap_data db rc win_condition pilot_df consecutive_df c).1
          row.pilotId = Option.some row.lapTime) := by
  unfold extract_lap_data at hrow ⊢
  by_cases hp : pilot_df.isEmpty
  · rw [if_pos hp] at hrow
    simp at hrow
  · rw [if_neg hp] at hrow ⊢
    apply markFastest_flag_iff
    · intro r hr
      exact (mem_lapGroups_fold db win_condition pilot_df consecutive_df _ _
        (by intro r' hr'; simp at hr') r hr).1
    · exact hrow

/-- The window lookup for win condition 4 is the first consecutive-table
row of the pilot (empty/absent tables give no window). -/
theorem windowFor_four (consecutive_df : Option (List ConsecRow)) (pid : Nat) :
    windowFor 4 consecutive_df pid =
      (consecutive_df.getD []).find? (fun r => r.pilotId = pid) := by
  cases consecutive_df with
  | none => rfl
  | some df =>
    cases df with
    | nil => rfl
    | cons a l => simp [windowFor]

/-- C1: in the lap table of `_extract_lap_data`, a row's
best-consecutive flag is 1 exactly when the win condition is 4, the
pilot has consecutive-window data, the row's resolved round equals the
window's round, the row is not the holeshot, and its lap index lies in
`[adjusted_start, adjusted_start + window_size)`, where a reported
window start of 0 is remapped to 1; in every other case the flag is 0. -/
theorem claim_C1_best_q (db : DB) (rc : RaceClass) (win_condition : Int)
    (pilot_df : List PilotRow) (consecutive_df : Option (List ConsecRow)) (c : Cache)
    (row : LapRow)
    (hrow : row ∈ (extract_lap_data db rc win_condition pilot_df consecutive_df c).1) :
    (row.bestQ = 1 ↔
      win_condition = 4 ∧
      ∃ w, ((consecutive_df.getD []).find? (fun r => r.pilotId = row.pilotId)) =
          Option.some w ∧
        row.round = w.round ∧ 0 < row.lap ∧
        (if w.lapStart = 0 then 1 else w.lapStart) ≤ (row.lap : Int) ∧
        (row.lap : Int) < (if w.lapStart = 0 then 1 else w.lapStart) + w.nLaps) := by
  have hq := mem_extract_lap_data_bestQ hrow
  by_cases h4 : win_condition = 4
  · subst h4
    rw [hq, windowFor_four]
    cases hfind : (consecutive_df.getD []).find? (fun r => r.pilotId = row.pilotId) with
    | none => simp [bestQFlag]
    | some w =>
      by_cases hr : row.round = w.round
      · by_cases hl : 0 < row.lap
        · by_cases hrange :
            (if w.lapStart = 0 then 1 else w.lapStart) ≤ (row.lap : Int) ∧
              (row.lap : Int) < (if w.lapStart = 0 then 1 else w.lapStart) + w.nLaps
          · simp [bestQFlag, hr, hl, hrange]
          · simp [bestQFlag, hr, hl, hrange]
        · simp [bestQFlag, hr, hl]
      · simp [bestQFlag, hr]
  · have hwnone : windowFor win_condition consecutive_df row.pilotId = Option.none := by
      unfold windowFor
      cases consecutive_df with
      | none => rfl
      | some df => simp [h4]
    rw [hq, hwnone]
    simp [bestQFlag, h4]

/-- The pilot-table row of pilot 7. -/
def pilotRowAlice : PilotRow := pilotRowOf pilotAlice

/-- The consecutive-window table of pilot 7: best 3 laps from lap 1 of
round 2. -/
def dfAlice3 : List ConsecRow :=
  [{ pilotId := 7, time := 81, round := 2, lapStart := 1, nLaps := 3 }]

/-- Lap 1 of the worked example, flagged as a best-consecutive member. -/
def rowAliceLap1 : LapRow where
  pilotId := 7
  pilotName := "Alice"
  heat := 10
  lapTime := 28
  round := 2
  lap := 1
  bestQ := 1
  fastestLap := 0
  heatColor := 10

/-- Lap 3 of the worked example, flagged as the fastest lap under win
condition 3. -/
def rowAliceLap3 : LapRow where
  pilotId := 7
  pilotName := "Alice"
  heat := 10
  lapTime := 26
  round := 2
  lap := 3
  bestQ := 0
  fastestLap := 1
  heatColor := 10

/-- Witness: under win condition 4 the specification's worked example
(window start 1, size 3, round 2) flags lap 1. -/
theorem claim_C1_witness : rowAliceLap1.bestQ = 1 :=
  (claim_C1_best_q dbLaps rcClass1 4 [pilotRowAlice] (Option.some dfAlice3) [] rowAliceLap1
    (by decide)).mpr
    ⟨rfl, { pilotId := 7, time := 81, round := 2, lapStart := 1, nLaps := 3 },
      by decide, by decide, by decide, by decide, by decide⟩

/-- Witness: under win condition 3 the minimum non-holeshot lap (lap 3,
26.5s) is flagged as the fastest lap. -/
theorem claim_C2_witness : rowAliceLap3.fastestLap = 1 :=
  (claim_C2_fastest_lap dbLaps rcClass1 3 [pilotRowAlice] Option.none [] rowAliceLap3
    (by decide)).mpr ⟨rfl, by decide, by decide⟩

/-! ## C8 — pilot ordering and the rendered axis -/

/-- The ordering the claim words for win condition 4: ascending by the
window-size deficit `base - nLaps`, ties broken by best consecutive
time. -/
def deficitRel (consecutive_laps_base : Int) (a b : ConsecRow) : Prop :=
  consecutive_laps_base - a.nLaps < consecutive_laps_base - b.nLaps ∨
    (consecutive_laps_base - a.nLaps = consecutive_laps_base - b.nLaps ∧ a.time ≤ b.time)

theorem consecSortRel_total (consecutive_laps_base : Int) (a b : ConsecRow) :
    consecSortRel consecutive_laps_base a b ∨ consecSortRel consecutive_laps_base b a := by
  unfold consecSortRel
  rcases lt_trichotomy (getPriority consecutive_laps_base a.nLaps)
    (getPriority consecutive_laps_base b.nLaps) with h | h | h
  · exact Or.inl (Or.inl h)
  · rcases le_total a.time b.time with ht | ht
    · exact Or.inl (Or.inr ⟨h, ht⟩)
    · exact Or.inr (Or.inr ⟨h.symm, ht⟩)
  · exact Or.inr (Or.inl h)

theorem consecSortRel_trans (consecutive_laps_base : Int) (a b c : ConsecRow)
    (hab : consecSortRel consecutive_laps_base a b)
    (hbc : consecSortRel consecutive_laps_base b c) :
    consecSortRel consecutive_laps_base a c := by
  unfold consecSortRel at hab hbc ⊢
  rcases hab with h1 | ⟨h1, t1⟩ <;> rcases hbc with h2 | ⟨h2, t2⟩
  · exact Or.inl (lt_trans h1 h2)
  · exact Or.inl (h2 ▸ h1)
  · exact Or.inl (h1 ▸ h2)
  · exact Or.inr ⟨h1.trans h2, t1.trans t2⟩

instance (consecutive_laps_base : Int) : IsTotal ConsecRow (consecSortRel consecutive_laps_base) :=
  ⟨consecSortRel_total consecutive_laps_base⟩

instance (consecutive_laps_base : Int) : IsTrans ConsecRow (consecSortRel consecutive_laps_base) :=
  ⟨consecSortRel_trans consecutive_laps_base⟩

instance : IsTotal (Nat × ℚ) bestSortRel := ⟨fun a b => le_total a.2 b.2⟩

instance : IsTrans (Nat × ℚ) bestSortRel := ⟨fun _ _ _ h1 h2 => le_trans h1 h2⟩

/-- Unfolding equation of `pilotOrder` for a present consecutive table. -/
theorem pilotOrder_some (win_condition : Int) (lap_df : List LapRow) (df : List ConsecRow)
    (consecutive_laps_base : Int) :
    pilotOrder win_condition lap_df (Option.some df) consecutive_laps_base =
      if win_condition = 4 ∧ 0 < df.length then
        (List.insertionSort (consecSortRel consecutive_laps_base) df).map (fun r => r.pilotId)
      else bestLapOrder lap_df := rfl

/-- For nonnegative window sizes and a base below the sentinel 999999,
the code's priority ordering implies the claim's deficit ordering. -/
theorem consecSortRel_imp_deficitRel {consecutive_laps_base : Int} {a b : ConsecRow}
    (ha : 0 ≤ a.nLaps) (hb : 0 ≤ b.nLaps) (hbase : consecutive_laps_base ≤ 999999)
    (h : consecSortRel consecutive_laps_base a b) : deficitRel consecutive_laps_base a b := by
  unfold consecSortRel getPriority at h
  unfold deficitRel
  by_cases hz : a.nLaps = 0 <;> by_cases hz' : b.nLaps = 0 <;>
    simp only [hz, hz', if_true, if_false, if_pos, if_neg, not_false_iff] at h <;>
    rcases h with h | ⟨h, ht⟩
  · simp [hz, hz'] at h
  · exact Or.inr ⟨by rw [hz, hz'], ht⟩
  · exfalso
    omega
  · exfalso
    omega
  · left
    omega
  · exfalso
    omega
  · left
    omega
  · right
    exact ⟨by omega, ht⟩

/-- Every consecutive-table row of a pilot-best pair stores that
pilot's minimum. -/
theorem mem_pilotBestLapsTable {lap_df : List LapRow} {pair : Nat × ℚ}
    (h : pair ∈ pilotBestLapsTable lap_df) :
    pilotMinRegular lap_df pair.1 = Option.some pair.2 := by
  unfold pilotBestLapsTable at h
  rcases List.mem_filterMap.mp h with ⟨pid, _, hf⟩
  cases hm : pilotMinRegular lap_df pid with
  | none =>
    rw [hm] at hf
    simp at hf
  | some t =>
    rw [hm] at hf
    have := Option.some.inj hf
    rw [← this]
    exact hm

/-- Every pilot with a non-holeshot row has a defined minimum. -/
theorem regularPilotIds_isSome {lap_df : List LapRow} {pid : Nat}
    (h : pid ∈ regularPilotIds lap_df) : (pilotMinRegular lap_df pid).isSome := by
  unfold regularPilotIds at h
  have h2 : pid ∈ ((lap_df.filter (fun r => 0 < r.lap)).map (fun r => r.pilotId)).dedup := by
    have := (List.perm_insertionSort (fun a b => a ≤ b)
      ((lap_df.filter (fun r => 0 < r.lap)).map (fun r => r.pilotId)).dedup).mem_iff.mp h
    exact this
  rw [List.mem_dedup] at h2
  rcases List.mem_map.mp h2 with ⟨row, hrow, rfl⟩
  cases hm : pilotMinRegular lap_df row.pilotId with
  | some t => rfl
  | none =>
    exfalso
    unfold pilotMinRegular at hm
    rw [List.min?_eq_none_iff, List.map_eq_nil_iff] at hm
    have hmem : row ∈ lap_df.filter (fun r => r.pilotId = row.pilotId ∧ 0 < r.lap) := by
      rw [List.mem_filter]
      rw [List.mem_filter] at hrow
      refine ⟨hrow.1, ?_⟩
      have hlap : (0 : Nat) < row.lap := by simpa using hrow.2
      simp [hlap]
    rw [hm] at hmem
    simp at hmem

/-- The first components of the pilot-best table are exactly the
regular pilots. -/
theorem pilotBestLapsTable_map_fst (lap_df : List LapRow) :
    (pilotBestLapsTable lap_df).map Prod.fst = regularPilotIds lap_df := by
  unfold pilotBestLapsTable
  have hgen : ∀ l : List Nat, (∀ pid ∈ l, (pilotMinRegular lap_df pid).isSome) →
      ((l.filterMap (fun pid => (pilotMinRegular lap_df pid).map (fun t => (pid, t)))).map
        Prod.fst) = l := by
    intro l
    induction l with
    | nil => intro _; rfl
    | cons a l ih =>
      intro hl
      have ha := hl a (List.mem_cons_self a l)
      cases hm : pilotMinRegular lap_df a with
      | none => rw [hm] at ha; simp at ha
      | some t =>
        simp only [List.filterMap_cons, hm, Option.map_some']
        rw [List.map_cons, ih (fun pid hpid => hl pid (List.mem_cons_of_mem a hpid))]
  exact hgen (regularPilotIds lap_df) (fun pid hpid => regularPilotIds_isSome hpid)

/-- C8: pilot ordering and the rendered axis.  (a) For win condition 4
with a nonempty consecutive table (and sane data: nonnegative window
sizes, base below the code's 999999 sentinel) the produced order is a
permutation of the table sorted ascending by (window-size deficit, best
consecutive time), so full-window pilots rank above partial windows
with ties broken by speed.  (b) For every other win condition the order
is a permutation of the pilots having non-holeshot laps, pairwise
ascending by personal-best non-holeshot lap time.  (c) The rendered
axis lists the pilots in the reverse of the order (when every ordered
pilot is in the pilot table). -/
theorem claim_C8_pilot_ordering (win_condition : Int) (lap_df : List LapRow)
    (consecutive_df : Option (List ConsecRow)) (consecutive_laps_base : Int)
    (pilot_df : List PilotRow) :
    (∀ df, consecutive_df = Option.some df → win_condition = 4 → 0 < df.length →
      (∀ r ∈ df, 0 ≤ r.nLaps) → consecutive_laps_base ≤ 999999 →
      ∃ sortedRows : List ConsecRow,
        pilotOrder win_condition lap_df consecutive_df consecutive_laps_base =
          sortedRows.map (fun r => r.pilotId) ∧
        sortedRows.Perm df ∧ sortedRows.Sorted (deficitRel consecutive_laps_base)) ∧
    (win_condition ≠ 4 →
      (pilotOrder win_condition lap_df consecutive_df consecutive_laps_base).Perm
        (regularPilotIds lap_df) ∧
      (pilotOrder win_condition lap_df consecutive_df consecutive_laps_base).Pairwise
        (fun a b => ∀ ta tb, pilotMinRegular lap_df a = Option.some ta →
          pilotMinRegular lap_df b = Option.some tb → ta ≤ tb)) ∧
    ((∀ pid ∈ pilotOrder win_condition lap_df consecutive_df consecutive_laps_base,
        ∃ p ∈ pilot_df, p.pilotId = pid) →
      axisPilots pilot_df (pilotOrder win_condition lap_df consecutive_df
        consecutive_laps_base) =
        (pilotOrder win_condition lap_df consecutive_df consecutive_laps_base).reverse) := by
  refine ⟨?_, ?_, ?_⟩
  · intro df hdf h4 hlen hnn hbase
    subst hdf
    subst h4
    refine ⟨List.insertionSort (consecSortRel consecutive_laps_base) df, ?_, ?_, ?_⟩
    · rw [pilotOrder_some, if_pos ⟨rfl, hlen⟩]
    · exact List.perm_insertionSort _ df
    · have hs := List.sorted_insertionSort (consecSortRel consecutive_laps_base) df
      refine List.Pairwise.imp_of_mem ?_ hs
      intro a b ha hb hr
      exact consecSortRel_imp_deficitRel (hnn a ((List.mem_insertionSort _).mp ha))
        (hnn b ((List.mem_insertionSort _).mp hb)) hbase hr
  · intro hne
    have hporder :
        pilotOrder win_condition lap_df consecutive_df consecutive_laps_base =
          bestLapOrder lap_df := by
      cases consecutive_df with
      | none => rfl
      | some df =>
        rw [pilotOrder_some, if_neg]
        intro hand
        exact hne hand.1
    rw [hporder]
    constructor
    · have hp := (List.perm_insertionSort bestSortRel (pilotBestLapsTable lap_df)).map
        Prod.fst
      rw [pilotBestLapsTable_map_fst] at hp
      exact hp
    · unfold bestLapOrder
      rw [List.pairwise_map]
      have hs := List.sorted_insertionSort bestSortRel (pilotBestLapsTable lap_df)
      refine List.Pairwise.imp_of_mem ?_ hs
      intro x y hx hy hr ta tb hta htb
      have hxm : pilotMinRegular lap_df x.1 = Option.some x.2 :=
        mem_pilotBestLapsTable ((List.mem_insertionSort _).mp hx)
      have hym : pilotMinRegular lap_df y.1 = Option.some y.2 :=
        mem_pilotBestLapsTable ((List.mem_insertionSort _).mp hy)
      rw [hxm] at hta
      rw [hym] at htb
      rw [← Option.some.inj hta, ← Option.some.inj htb]
      exact hr
  · intro hcover
    unfold axisPilots
    refine List.filter_eq_self.mpr ?_
    intro pid hpid
    rw [List.mem_reverse] at hpid
    rcases hcover pid hpid with ⟨p, hp, hpe⟩
    simp only [List.find?_isSome]
    exact ⟨p, hp, by simp [hpe]⟩

/-- Witness: all three ordering statements realised at concrete
inputs (the one-pilot example data). -/
theorem claim_C8_witness :
    (∃ sortedRows : List ConsecRow, pilotOrder 4 [] (Option.some dfAlice3) 3 =
        sortedRows.map (fun r => r.pilotId) ∧
      sortedRows.Perm dfAlice3 ∧ sortedRows.Sorted (deficitRel 3)) ∧
    ((pilotOrder 0 [rowAliceLap1] Option.none 3).Perm (regularPilotIds [rowAliceLap1]) ∧
      (pilotOrder 0 [rowAliceLap1] Option.none 3).Pairwise
        (fun a b => ∀ ta tb, pilotMinRegular [rowAliceLap1] a = Option.some ta →
          pilotMinRegular [rowAliceLap1] b = Option.some tb → ta ≤ tb)) ∧
    axisPilots [pilotRowAlice] (pilotOrder 0 [rowAliceLap1] Option.none 3) =
      (pilotOrder 0 [rowAliceLap1] Option.none 3).reverse :=
  ⟨(claim_C8_pilot_ordering 4 [] (Option.some dfAlice3) 3 []).1 dfAlice3 rfl rfl (by decide)
      (by decide) (by decide),
   (claim_C8_pilot_ordering 0 [rowAliceLap1] Option.none 3 []).2.1 (by decide),
   (claim_C8_pilot_ordering 0 [rowAliceLap1] Option.none 3 [pilotRowAlice]).2.2
     (by decide)⟩
